import Mathlib

/-!
# KWIVER metadata-to-CSV export (`arrows/core/metadata_map_io_csv.cxx`)

A shallow embedding of `metadata_map_io_csv::set_configuration`,
`check_configuration`, `priv::write_csv_header`, `write_visitor` and
`metadata_map_io_csv::save_`, followed by theorems about column planning and
row admission (downsampling).

Conventions of the embedding.
* The output stream is the text written to it so far (a `String`); `save_`
  returns that text together with the exception it raised, if any.
* `uint64_t` values are natural numbers; every arithmetic step of the source that
  can wrap is reduced modulo `2^64` explicitly.
* `std::set< vital_metadata_tag >` is a strictly ascending list of tags.
* The frame collection (`std::map< frame_id_t, metadata_vector >`) is the list of
  its entries in iteration order; a packet (`std::map` from tag to item, plus a
  timestamp) is the list of its items in iteration order.
-/

namespace kwiver.arrows.core

/-! ## Collaborators that are declared outside the translated file -/

/-- A metadata tag is the numeric value of the `vital_metadata_tag` enumerator. -/
abbrev vital_metadata_tag := Nat

/-- The tag vocabulary used by the exporter: the six enumerators the source
names and the four trait look-ups it calls.  The enumeration and its traits
table live in `vital/types/metadata_tags.h` and `metadata_traits.h`, so they are
a parameter of every definition below. -/
structure tag_vocabulary where
  VITAL_META_UNKNOWN : vital_metadata_tag
  VITAL_META_VIDEO_URI : vital_metadata_tag
  VITAL_META_SENSOR_LOCATION : vital_metadata_tag
  VITAL_META_FRAME_CENTER : vital_metadata_tag
  VITAL_META_TARGET_LOCATION : vital_metadata_tag
  VITAL_META_CORNER_POINTS : vital_metadata_tag
  /-- The tag of `kv::tag_traits_by_enum_name( name )`. -/
  tag_traits_by_enum_name : String → vital_metadata_tag
  /-- The tag of `kv::tag_traits_by_name( name )`. -/
  tag_traits_by_name : String → vital_metadata_tag
  /-- The text of `kv::tag_traits_by_tag( tag ).enum_name()`. -/
  enum_name : vital_metadata_tag → String
  /-- The text of `kv::tag_traits_by_tag( tag ).name()`. -/
  name : vital_metadata_tag → String

/-- The modulus of `uint64_t` arithmetic. -/
def UINT64_MOD : Nat := 18446744073709551616

/-- Conversion of a signed 64-bit value to `uint64_t`, as performed by the usual
arithmetic conversions when `time_usec_t` / `frame_id_t` meet a `uint64_t`. -/
def to_uint64 (x : Int) : Nat := (x % 18446744073709551616).toNat

/-- Modelled from the spec: the Timestamp of a record, "an optional frame-number
component and an optional microsecond-time component; either, both, or neither
may be valid" (`vital/types/timestamp.h` is not among the sources).  Both
components are signed 64-bit integers (`time_usec_t`, `frame_id_t`). -/
structure timestamp where
  m_valid_time : Bool
  m_time : Int
  m_valid_frame : Bool
  m_frame : Int
deriving DecidableEq, Repr

def timestamp.has_valid_time (ts : timestamp) : Bool := ts.m_valid_time

def timestamp.get_time_usec (ts : timestamp) : Int := ts.m_time

def timestamp.has_valid_frame (ts : timestamp) : Bool := ts.m_valid_frame

def timestamp.get_frame (ts : timestamp) : Int := ts.m_frame

/-- Modelled from the spec: the closed variant of metadata values, "booleans,
arithmetic scalars (integer/floating), strings, a geodetic point ... and a
geodetic polygon" (`vital/types/metadata.h` is not among the sources).  A
floating-point number is represented by the text `operator<<` prints for it; a
geodetic point by the three printed components of `location( lat_lon_WGS84 )`;
a polygon by the printed component pairs of the vertices of
`polygon( lat_lon_WGS84 )`. -/
inductive metadata_value where
  | bool (data : Bool)
  | int (data : Int)
  | uint64 (data : Nat)
  | double (printed : String)
  | string (data : String)
  | geo_point (loc0 loc1 loc2 : String)
  | geo_polygon (verts : List (String × String))
deriving DecidableEq, Repr

/-- A metadata packet: its items in the iteration order of the underlying map,
and its timestamp. -/
structure metadata where
  items : List (vital_metadata_tag × metadata_value)
  timestamp : timestamp
deriving DecidableEq, Repr

/-- The member `metadata::has( tag )`. -/
def metadata.has (p : metadata) (tag : vital_metadata_tag) : Bool :=
  p.items.any (fun it => it.1 == tag)

/-- The member `metadata::find( tag )`: the value of the item stored under `tag`. -/
def metadata.find (p : metadata) (tag : vital_metadata_tag) : Option metadata_value :=
  (p.items.find? (fun it => it.1 == tag)).map Prod.snd

/-- The frame collection `data->metadata()`: frame identifier and the packets
stored at that frame, in iteration order. -/
abbrev metadata_map := List (Int × List metadata)

/-! ## `std::set< vital_metadata_tag >` -/

/-- The operation `std::set::insert`, on a strictly ascending list. -/
def set_insert (x : vital_metadata_tag) : List vital_metadata_tag → List vital_metadata_tag
  | [] => [x]
  | y :: ys =>
    if x < y then x :: y :: ys
    else if x = y then y :: ys
    else y :: set_insert x ys

/-- The operation `std::set::erase( key )`. -/
def set_erase (x : vital_metadata_tag) (s : List vital_metadata_tag) : List vital_metadata_tag :=
  s.filter (fun y => decide (y ≠ x))

/-! ## Configuration -/

/-- The private state `metadata_map_io_csv::priv`. -/
structure priv where
  write_remaining_columns : Bool
  write_enum_names : Bool
  names_string : String
  column_names : List String
  overrides_string : String
  column_overrides : List String
  every_n_microseconds : Nat
  every_n_frames : Nat
deriving DecidableEq, Repr

/-- The configuration block handed to `set_configuration`: the two interval keys
may be absent (`has_value` false). -/
structure config_block where
  write_remaining_columns : Bool
  write_enum_names : Bool
  every_n_microseconds : Option Nat
  every_n_frames : Option Nat
  column_names : String
  column_overrides : String
deriving DecidableEq, Repr

/-- Modelled from the spec: `kwiver::vital::tokenize( s, result, "," )`, "split on
a delimiter" (`vital/util/tokenize.h` is not among the sources).  `cur` is the
token being read, in reverse; empty tokens are kept. -/
def tokenize_aux : List Char → List Char → List String
  | cur, [] => [String.mk cur.reverse]
  | cur, c :: cs =>
    if c = ',' then String.mk cur.reverse :: tokenize_aux [] cs
    else tokenize_aux (c :: cur) cs

/-- Modelled from the spec: `kwiver::vital::tokenize` with delimiter `","`. -/
def tokenize (s : String) : List String := tokenize_aux [] s.data

/-- The characters `std::isspace` accepts in the "C" locale. -/
def is_space (c : Char) : Bool :=
  c = ' ' || c = '\t' || c = '\n' || c = '\r' || c = '\x0b' || c = '\x0c'

/-- Modelled from the spec: `kwiver::vital::string_trim`, "trim surrounding
whitespace from every token" (`vital/util/string.h` is not among the sources). -/
def string_trim (s : String) : String :=
  String.mk ((s.data.dropWhile is_space).reverse.dropWhile is_space).reverse

/-- The lambda `split_and_trim` of `set_configuration`. -/
def split_and_trim (s : String) : List String := (tokenize s).map string_trim

/-- The operation `std::vector< std::string >::resize( n )`. -/
def resize (v : List String) (n : Nat) : List String :=
  v.take n ++ List.replicate (n - v.length) ""

/-- The method `metadata_map_io_csv::set_configuration`. -/
def set_configuration (config : config_block) : priv :=
  let column_names := split_and_trim config.column_names
  { write_remaining_columns := config.write_remaining_columns
    write_enum_names := config.write_enum_names
    every_n_microseconds := config.every_n_microseconds.getD 0
    every_n_frames := config.every_n_frames.getD 0
    names_string := config.column_names
    column_names := column_names
    overrides_string := config.column_overrides
    column_overrides := resize (split_and_trim config.column_overrides) column_names.length }

/-- The method `metadata_map_io_csv::check_configuration`. -/
def check_configuration (config : config_block) : Bool :=
  !(config.every_n_microseconds.isSome && config.every_n_frames.isSome)

/-! ## Value encoding (`write_visitor`) and header writing -/

/-- The fields written by `write_visitor` for one value, each of them followed by
a comma in the output: the generic overload (arithmetic: the printed number;
otherwise the text in double quotes), and the specialisations for `bool`,
`kv::geo_point` and `kv::geo_polygon`. -/
def write_visitor_fields : metadata_value → List String
  | .bool data => [if data then "true" else "false"]
  | .int data => [toString data]
  | .uint64 data => [toString data]
  | .double printed => [printed]
  | .string data => ["\"" ++ data ++ "\""]
  | .geo_point loc0 loc1 loc2 => [loc0, loc1, loc2]
  | .geo_polygon verts => verts.flatMap (fun v => [v.1, v.2])

/-- The text `write_visitor` sends to the stream. -/
def write_visitor (data : metadata_value) : String :=
  String.join ((write_visitor_fields data).map (fun f => f ++ ","))

/-- The overload `priv::write_csv_item( kv::metadata_item const&, std::ostream& )`. -/
def write_csv_item (data : metadata_value) : String := write_visitor data

/-- The header fields of `priv::write_csv_header`, each of them written in double
quotes and followed by a comma. -/
def write_csv_header_fields (V : tag_vocabulary) (d : priv)
    (csv_field : vital_metadata_tag) (field_name field_override : String) : List String :=
  if field_override ≠ "" then [field_override]
  else if csv_field = V.VITAL_META_UNKNOWN then [field_name]
  else if csv_field = V.VITAL_META_SENSOR_LOCATION then
    ["Sensor Geodetic Longitude (EPSG:4326)",
     "Sensor Geodetic Latitude (EPSG:4326)",
     "Sensor Geodetic Altitude (meters)"]
  else if csv_field = V.VITAL_META_FRAME_CENTER then
    ["Geodetic Frame Center Longitude (EPSG:4326)",
     "Geodetic Frame Center Latitude (EPSG:4326)",
     "Geodetic Frame Center Elevation (meters)"]
  else if csv_field = V.VITAL_META_TARGET_LOCATION then
    ["Target Geodetic Location Longitude (EPSG:4326)",
     "Target Geodetic Location Latitude (EPSG:4326)",
     "Target Geodetic Location Elevation (meters)"]
  else if csv_field = V.VITAL_META_CORNER_POINTS then
    ["Upper Left Corner Longitude (EPSG:4326)",
     "Upper Left Corner Latitude (EPSG:4326)",
     "Upper Right Corner Longitude (EPSG:4326)",
     "Upper Right Corner Latitude (EPSG:4326)",
     "Lower Right Corner Longitude (EPSG:4326)",
     "Lower Right Corner Latitude (EPSG:4326)",
     "Lower Left Corner Longitude (EPSG:4326)",
     "Lower Left Corner Latitude (EPSG:4326)"]
  else if d.write_enum_names then [V.enum_name csv_field]
  else [V.name csv_field]

/-- The text `priv::write_csv_header` sends to the stream. -/
def write_csv_header (V : tag_vocabulary) (d : priv)
    (csv_field : vital_metadata_tag) (field_name field_override : String) : String :=
  String.join ((write_csv_header_fields V d csv_field field_name field_override).map
    (fun f => "\"" ++ f ++ "\","))

/-! ## `save_`: column planning -/

/-- The local struct `metadata_info` of `save_`: one planned column. -/
structure metadata_info where
  id : vital_metadata_tag
  name : String
  str : String
deriving DecidableEq, Repr

/-- The innermost loop of the accumulation pass: the items of one packet. -/
def accumulate_packet (V : tag_vocabulary) (present_metadata_ids : List vital_metadata_tag)
    (metadata_packet : metadata) : List vital_metadata_tag :=
  metadata_packet.items.foldl
    (fun acc metadata_item =>
      if metadata_item.1 ≠ V.VITAL_META_VIDEO_URI then set_insert metadata_item.1 acc else acc)
    present_metadata_ids

/-- The middle loop of the accumulation pass: the packets of one frame. -/
def accumulate_frame (V : tag_vocabulary) (present_metadata_ids : List vital_metadata_tag)
    (frame_data : Int × List metadata) : List vital_metadata_tag :=
  frame_data.2.foldl (accumulate_packet V) present_metadata_ids

/-- The accumulation pass of `save_`: "Accumulate the unique metadata IDs". -/
def accumulate_present (V : tag_vocabulary) (data : metadata_map) : List vital_metadata_tag :=
  data.foldl (accumulate_frame V) []

/-- The tag the planner assigns to a name token: `tag_traits_by_enum_name` first
and, when that is `VITAL_META_UNKNOWN`, `tag_traits_by_name`. -/
def resolve_trait_id (V : tag_vocabulary) (name : String) : vital_metadata_tag :=
  if V.tag_traits_by_enum_name name ≠ V.VITAL_META_UNKNOWN then V.tag_traits_by_enum_name name
  else V.tag_traits_by_name name

/-- One iteration of the loop over `kvr::iota( d_->column_names.size() )`; the
state is the pair of `present_metadata_ids` and `infos`. -/
def explicit_step (V : tag_vocabulary) (d : priv)
    (st : List vital_metadata_tag × List metadata_info) (i : Nat) :
    List vital_metadata_tag × List metadata_info :=
  let name := d.column_names.getD i ""
  let str := d.column_overrides.getD i ""
  let trait_id := resolve_trait_id V name
  let present_metadata_ids :=
    if trait_id ≠ V.VITAL_META_UNKNOWN then set_erase trait_id st.1 else st.1
  (present_metadata_ids, st.2 ++ [{ id := trait_id, name := name, str := str }])

/-- The explicit-column loop of `save_`. -/
def explicit_columns (V : tag_vocabulary) (d : priv) (present_metadata_ids : List vital_metadata_tag) :
    List vital_metadata_tag × List metadata_info :=
  (List.range d.column_names.length).foldl (explicit_step V d) (present_metadata_ids, [])

/-- The planned column list `infos` of `save_`, as it stands when the header is
written. -/
def planned_columns (V : tag_vocabulary) (d : priv) (data : metadata_map) : List metadata_info :=
  let st := explicit_columns V d (accumulate_present V data)
  if d.write_remaining_columns then
    st.2 ++ st.1.map (fun id => { id := id, name := "", str := "" })
  else st.2

/-! ## `save_`: row admission and row emission -/

/-- The two running thresholds of the row-emission pass. -/
structure row_state where
  next_timestamp : Nat
  next_frame : Nat
deriving DecidableEq, Repr

/-- The thresholds at the start of the row-emission pass:
`next_timestamp = d_->every_n_microseconds` and `next_frame = 1`. -/
def initial_row_state (d : priv) : row_state :=
  { next_timestamp := d.every_n_microseconds, next_frame := 1 }

/-- The block `if( d_->every_n_microseconds )` of the loop body; `none` stands
for `continue`. -/
def time_gate (d : priv) (s : row_state) (ts : timestamp) : Option row_state :=
  if d.every_n_microseconds ≠ 0 then
    if !ts.has_valid_time || decide (to_uint64 ts.get_time_usec < s.next_timestamp) then none
    else
      some { s with
        next_timestamp :=
          (s.next_timestamp +
            (((to_uint64 ts.get_time_usec - s.next_timestamp) / d.every_n_microseconds + 1)
              % UINT64_MOD * d.every_n_microseconds) % UINT64_MOD) % UINT64_MOD }
  else some s

/-- The block `if( d_->every_n_frames )` of the loop body; `none` stands for
`continue`. -/
def frame_gate (d : priv) (s : row_state) (ts : timestamp) : Option row_state :=
  if d.every_n_frames ≠ 0 then
    if !ts.has_valid_frame || decide (to_uint64 ts.get_frame < s.next_frame) then none
    else
      some { s with
        next_frame :=
          (s.next_frame +
            (((to_uint64 ts.get_frame - s.next_frame) / d.every_n_frames + 1)
              % UINT64_MOD * d.every_n_frames) % UINT64_MOD) % UINT64_MOD }
  else some s

/-- Row admission for one packet: the time block, then the frame block. -/
def admission (d : priv) (s : row_state) (ts : timestamp) : Option row_state :=
  (time_gate d s ts).bind (fun s1 => frame_gate d s1 ts)

/-- The packets visited by the nested loops over `data->metadata()`, each with the
identifier of its frame, in visiting order. -/
def records (data : metadata_map) : List (Int × metadata) :=
  data.flatMap (fun frame_data => frame_data.2.map (fun metadata_packet => (frame_data.1, metadata_packet)))

/-- The row-emission loop: the packets for which the loop body reaches
"Write the frame number", in order.  The thresholds are carried across frames. -/
def row_loop (d : priv) : row_state → List (Int × metadata) → List (Int × metadata)
  | _, [] => []
  | s, r :: rest =>
    match admission d s r.2.timestamp with
    | none => row_loop d s rest
    | some s1 => r :: row_loop d s1 rest

/-- The thresholds after the row-emission loop has visited the given packets. -/
def row_loop_state (d : priv) : row_state → List (Int × metadata) → row_state
  | s, [] => s
  | s, r :: rest =>
    match admission d s r.2.timestamp with
    | none => row_loop_state d s rest
    | some s1 => row_loop_state d s1 rest

/-- The text written for one planned column of one admitted packet. -/
def write_cell (metadata_packet : metadata) (info : metadata_info) : String :=
  if metadata_packet.has info.id then
    match metadata_packet.find info.id with
    | some item => write_csv_item item
    | none => ""
  else ","

/-- The text written for one admitted packet: frame number, cells, newline. -/
def write_row (infos : List metadata_info) (r : Int × metadata) : String :=
  toString r.1 ++ "," ++ String.join (infos.map (write_cell r.2)) ++ "\n"

/-- The header line of `save_`. -/
def write_header_line (V : tag_vocabulary) (d : priv) (infos : List metadata_info) : String :=
  "\"Frame ID\"," ++
    String.join (infos.map (fun info => write_csv_header V d info.id info.name info.str)) ++ "\n"

/-- The packets for which `save_` writes a data row, in the order of writing
(none when the call fails before the row-emission loop). -/
def written_records (d : priv) (fout_ok : Bool) (data : metadata_map) : List (Int × metadata) :=
  if !fout_ok then []
  else if d.every_n_microseconds ≠ 0 ∧ d.every_n_frames ≠ 0 then []
  else row_loop d (initial_row_state d) (records data)

/-- The exceptions `save_` throws. -/
inductive save_exception where
  | file_write_exception
  | algorithm_configuration_exception
deriving DecidableEq, Repr

/-- The outcome of `save_`: the text written to `fout` and the exception thrown. -/
structure save_result where
  out : String
  thrown : Option save_exception
deriving DecidableEq, Repr

/-- The method `metadata_map_io_csv::save_`; `fout_ok` is the state of the stream
at the call (`!fout` is false). -/
def save_ (V : tag_vocabulary) (d : priv) (fout_ok : Bool) (data : metadata_map) : save_result :=
  if !fout_ok then
    { out := "", thrown := some .file_write_exception }
  else
    let infos := planned_columns V d data
    let header := write_header_line V d infos
    if d.every_n_microseconds ≠ 0 ∧ d.every_n_frames ≠ 0 then
      { out := header, thrown := some .algorithm_configuration_exception }
    else
      { out := header ++
          String.join ((row_loop d (initial_row_state d)
            (records data)).map (write_row infos))
        thrown := none }

/-! ## A concrete vocabulary for examples -/

/-- A small tag vocabulary: the six tags named by the source with their
enum-style and descriptive names, every other name resolving to
`VITAL_META_UNKNOWN`. -/
def sample_vocabulary : tag_vocabulary where
  VITAL_META_UNKNOWN := 0
  VITAL_META_VIDEO_URI := 1
  VITAL_META_SENSOR_LOCATION := 2
  VITAL_META_FRAME_CENTER := 3
  VITAL_META_TARGET_LOCATION := 4
  VITAL_META_CORNER_POINTS := 5
  tag_traits_by_enum_name := fun s =>
    if s = "VIDEO_URI" then 1
    else if s = "SENSOR_LOCATION" then 2
    else if s = "FRAME_CENTER" then 3
    else if s = "TARGET_LOCATION" then 4
    else if s = "CORNER_POINTS" then 5
    else 0
  tag_traits_by_name := fun s =>
    if s = "Video URI" then 1
    else if s = "Sensor Geodetic Location" then 2
    else if s = "Geodetic Frame Center" then 3
    else if s = "Target Geodetic Location" then 4
    else if s = "Corner Points" then 5
    else 0
  enum_name := fun t =>
    if t = 1 then "VIDEO_URI"
    else if t = 2 then "SENSOR_LOCATION"
    else if t = 3 then "FRAME_CENTER"
    else if t = 4 then "TARGET_LOCATION"
    else if t = 5 then "CORNER_POINTS"
    else "UNKNOWN"
  name := fun t =>
    if t = 1 then "Video URI"
    else if t = 2 then "Sensor Geodetic Location"
    else if t = 3 then "Geodetic Frame Center"
    else if t = 4 then "Target Geodetic Location"
    else if t = 5 then "Corner Points"
    else "Unknown / Undefined entry"

/-- A packet without items whose timestamp carries the valid time `t` only. -/
def packet_at_time (t : Int) : metadata :=
  { items := [], timestamp := { m_valid_time := true, m_time := t, m_valid_frame := false, m_frame := 0 } }

/-- A packet without items whose timestamp carries the valid frame number `f` only. -/
def packet_at_frame (f : Int) : metadata :=
  { items := [], timestamp := { m_valid_time := false, m_time := 0, m_valid_frame := true, m_frame := f } }

/-- A configuration state without columns and with the given two intervals. -/
def priv_with_intervals (every_n_microseconds every_n_frames : Nat) : priv :=
  { write_remaining_columns := true
    write_enum_names := false
    names_string := ""
    column_names := []
    overrides_string := ""
    column_overrides := []
    every_n_microseconds := every_n_microseconds
    every_n_frames := every_n_frames }

/-- The tags carried by the items of the frame collection, in visiting order. -/
def observed_tags (data : metadata_map) : List vital_metadata_tag :=
  data.flatMap (fun frame_data =>
    frame_data.2.flatMap (fun metadata_packet => metadata_packet.items.map Prod.fst))

/-- The explicit column planned for the `i`-th configured name token. -/
def explicit_info (V : tag_vocabulary) (d : priv) (i : Nat) : metadata_info :=
  { id := resolve_trait_id V (d.column_names.getD i "")
    name := d.column_names.getD i ""
    str := d.column_overrides.getD i "" }

/-- The set `present_metadata_ids` as it stands after the explicit-column loop. -/
def remaining_ids (V : tag_vocabulary) (d : priv) (data : metadata_map) : List vital_metadata_tag :=
  (explicit_columns V d (accumulate_present V data)).1

/-- The configuration of the column-planning example: `column_names` is
`"FRAME_CENTER, foo"` and `write_remaining_columns` is set. -/
def column_example_config : config_block :=
  { write_remaining_columns := true
    write_enum_names := false
    every_n_microseconds := none
    every_n_frames := none
    column_names := "FRAME_CENTER, foo"
    column_overrides := "" }

/-- The data of the column-planning example: one packet carrying the tags
SENSOR_LOCATION and FRAME_CENTER. -/
def column_example_data : metadata_map :=
  [(1, [{ items := [(sample_vocabulary.VITAL_META_SENSOR_LOCATION, .geo_point "-73.7" "42.8" "100"),
                    (sample_vocabulary.VITAL_META_FRAME_CENTER, .geo_point "-73.8" "42.9" "0")]
          timestamp := { m_valid_time := false, m_time := 0, m_valid_frame := true, m_frame := 1 } }])]

/-- A configuration state with the given column names, empty overrides and no
downsampling. -/
def priv_with_columns (column_names : List String) : priv :=
  { write_remaining_columns := true
    write_enum_names := false
    names_string := ""
    column_names := column_names
    overrides_string := ""
    column_overrides := column_names.map (fun _ => "")
    every_n_microseconds := 0
    every_n_frames := 0 }

/-- A configuration block in which both interval options are set (to nonzero
values), with the single unresolvable column name `foo`. -/
def conflicting_config : config_block :=
  { write_remaining_columns := true
    write_enum_names := false
    every_n_microseconds := some 1000000
    every_n_frames := some 2
    column_names := "foo"
    column_overrides := "" }

/-- Four frames holding one packet each, with valid times 0, 500000, 1200000 and
2100000 microseconds. -/
def time_example_data : metadata_map :=
  [(1, [packet_at_time 0]), (2, [packet_at_time 500000]),
   (3, [packet_at_time 1200000]), (4, [packet_at_time 2100000])]

/-- Two frames holding one packet each, with valid times 1900000 and 2000000
microseconds. -/
def close_times_data : metadata_map :=
  [(1, [packet_at_time 1900000]), (2, [packet_at_time 2000000])]

/-- Three frames holding one packet each, with valid times 0, 500000 and 3200000
microseconds: the last one lies several intervals of 1000000 past the first
threshold. -/
def time_gap_data : metadata_map :=
  [(1, [packet_at_time 0]), (2, [packet_at_time 500000]), (3, [packet_at_time 3200000])]

/-- Five frames holding one packet each, with valid frame numbers 1 to 5. -/
def frame_example_data : metadata_map :=
  [(1, [packet_at_frame 1]), (2, [packet_at_frame 2]), (3, [packet_at_frame 3]),
   (4, [packet_at_frame 4]), (5, [packet_at_frame 5])]

/-- Two frames holding one packet each, with valid frame numbers 1 and 2. -/
def two_frames_data : metadata_map :=
  [(1, [packet_at_frame 1]), (2, [packet_at_frame 2])]

/-- The records that are the first, in emission order, to carry their frame
number: a record is kept unless its frame number is among those `seen` before
it. -/
def first_record_of_each_frame : List Int → List (Int × metadata) → List (Int × metadata)
  | _, [] => []
  | seen, r :: rest =>
    if r.2.timestamp.get_frame ∈ seen then first_record_of_each_frame seen rest
    else r :: first_record_of_each_frame (r.2.timestamp.get_frame :: seen) rest

/-- Three frames holding five packets with valid frame numbers 1, 1, 2, 2 and 5. -/
def repeated_frames_data : metadata_map :=
  [(1, [packet_at_frame 1, packet_at_frame 1]), (2, [packet_at_frame 2, packet_at_frame 2]),
   (5, [packet_at_frame 5])]

/-- One packet carrying the reserved linkage tag VIDEO_URI and the tag
FRAME_CENTER. -/
def video_uri_data : metadata_map :=
  [(1, [{ items := [(sample_vocabulary.VITAL_META_VIDEO_URI, .string "file.mpg"),
                    (sample_vocabulary.VITAL_META_FRAME_CENTER, .geo_point "-73.8" "42.9" "0")]
          timestamp := { m_valid_time := false, m_time := 0, m_valid_frame := true, m_frame := 1 } }])]

/-- The fields written for one planned column of one admitted packet: those of
the value encoder when the packet has a value for the tag, and the single
empty field of the branch "Write an empty field" otherwise. -/
def write_cell_fields (metadata_packet : metadata) (info : metadata_info) : List String :=
  if metadata_packet.has info.id then
    match metadata_packet.find info.id with
    | some item => write_visitor_fields item
    | none => []
  else [""]

/-- The data fields of one row, after the leading frame-id field. -/
def write_row_fields (infos : List metadata_info) (metadata_packet : metadata) : List String :=
  infos.flatMap (write_cell_fields metadata_packet)

/-- The header fields of the header line, after the leading "Frame ID" field. -/
def write_header_line_fields (V : tag_vocabulary) (d : priv) (infos : List metadata_info) :
    List String :=
  infos.flatMap (fun info => write_csv_header_fields V d info.id info.name info.str)

/-- A packet without items and without a valid timestamp component. -/
def empty_packet : metadata :=
  { items := [], timestamp := { m_valid_time := false, m_time := 0, m_valid_frame := false, m_frame := 0 } }

/-- A packet holding a geodetic point under FRAME_CENTER, and nothing else. -/
def frame_center_packet : metadata :=
  { items := [(sample_vocabulary.VITAL_META_FRAME_CENTER, .geo_point "-73.8" "42.9" "0")]
    timestamp := { m_valid_time := false, m_time := 0, m_valid_frame := false, m_frame := 0 } }

/-- A packet holding an integer under the placeholder tag VITAL_META_UNKNOWN. -/
def unknown_item_packet : metadata :=
  { items := [(sample_vocabulary.VITAL_META_UNKNOWN, .int 7)]
    timestamp := { m_valid_time := false, m_time := 0, m_valid_frame := false, m_frame := 0 } }

/-- A configuration block with the given column names and overrides, remaining
columns on and no downsampling. -/
def config_with_columns (column_names column_overrides : String) : config_block :=
  { write_remaining_columns := true
    write_enum_names := false
    every_n_microseconds := none
    every_n_frames := none
    column_names := column_names
    column_overrides := column_overrides }

/-- Two frames: a packet holding a frame center, then a packet without items. -/
def absent_composite_data : metadata_map :=
  [(1, [frame_center_packet]), (2, [empty_packet])]

/-- Four frames holding one packet each, with valid times 2500000, 1200000,
2100000 and 3100000 microseconds: not sorted. -/
def unsorted_times_data : metadata_map :=
  [(1, [packet_at_time 2500000]), (2, [packet_at_time 1200000]),
   (3, [packet_at_time 2100000]), (4, [packet_at_time 3100000])]

/-- The same configuration state with both downsampling intervals set to zero. -/
def without_downsampling (d : priv) : priv :=
  { d with every_n_microseconds := 0, every_n_frames := 0 }

/-- Two frames: a packet holding a frame center with frame number 1, and a packet
holding a sensor location with frame number 2. -/
def two_tags_data : metadata_map :=
  [(1, [{ items := [(sample_vocabulary.VITAL_META_FRAME_CENTER, .geo_point "-73.8" "42.9" "0")]
          timestamp := { m_valid_time := false, m_time := 0, m_valid_frame := true, m_frame := 1 } }]),
   (2, [{ items := [(sample_vocabulary.VITAL_META_SENSOR_LOCATION, .geo_point "-73.7" "42.8" "100")]
          timestamp := { m_valid_time := false, m_time := 0, m_valid_frame := true, m_frame := 2 } }])]

/-- The three tags whose header is the three-field longitude/latitude/altitude
group. -/
def is_point_tag (V : tag_vocabulary) (tag : vital_metadata_tag) : Bool :=
  decide (tag = V.VITAL_META_SENSOR_LOCATION) || decide (tag = V.VITAL_META_FRAME_CENTER) ||
    decide (tag = V.VITAL_META_TARGET_LOCATION)

/-- The four composite geodetic tags of `write_csv_header`. -/
def is_composite_tag (V : tag_vocabulary) (tag : vital_metadata_tag) : Bool :=
  is_point_tag V tag || decide (tag = V.VITAL_META_CORNER_POINTS)

/-- Modelled from the spec: the type of the value stored under a tag, which the
traits table fixes (`vital/types/metadata_traits.h` is not among the sources):
the three point tags hold a geodetic point, the corner-points tag holds a
geodetic polygon, and every other tag holds a boolean, a number or a string. -/
def well_typed_item (V : tag_vocabulary) (it : vital_metadata_tag × metadata_value) : Bool :=
  match it.2 with
  | .geo_point _ _ _ => is_point_tag V it.1
  | .geo_polygon _ => decide (it.1 = V.VITAL_META_CORNER_POINTS)
  | _ => !is_composite_tag V it.1

/-- The enumerators the header writer tells apart are distinct: the placeholder is
none of the four composite tags, and corner points is none of the point tags. -/
def distinct_composite_tags (V : tag_vocabulary) : Bool :=
  !is_composite_tag V V.VITAL_META_UNKNOWN && !is_point_tag V V.VITAL_META_CORNER_POINTS

/-- The number of vertices of the polygon a packet holds under the corner-points
tag (0 when it holds none). -/
def corner_vertex_count (V : tag_vocabulary) (metadata_packet : metadata) : Nat :=
  match metadata_packet.find V.VITAL_META_CORNER_POINTS with
  | some (.geo_polygon verts) => verts.length
  | _ => 0

/-- The number of planned corner-points columns that have no override: the
columns whose header is the eight-field corner group. -/
def corner_columns (V : tag_vocabulary) (infos : List metadata_info) : Nat :=
  (infos.filter (fun info =>
    decide (info.id = V.VITAL_META_CORNER_POINTS ∧ info.str = ""))).length

/-- A packet holding a frame center, a three-vertex polygon under corner points
and an integer under the tag 7. -/
def triangle_packet : metadata :=
  { items := [(sample_vocabulary.VITAL_META_FRAME_CENTER, .geo_point "-73.8" "42.9" "0"),
              (sample_vocabulary.VITAL_META_CORNER_POINTS,
                .geo_polygon [("-73.9", "42.8"), ("-73.7", "42.8"), ("-73.8", "43.0")]),
              (7, .int 12)]
    timestamp := { m_valid_time := false, m_time := 0, m_valid_frame := false, m_frame := 0 } }

/-! ## Lemmas: the tag set -/

theorem mem_set_insert (a x : vital_metadata_tag) (l : List vital_metadata_tag) :
    a ∈ set_insert x l ↔ a = x ∨ a ∈ l := by
  induction l with
  | nil => simp [set_insert]
  | cons y ys ih =>
    unfold set_insert
    split_ifs with h1 h2
    · simp
    · subst h2; simp
    · simp only [List.mem_cons, ih]; tauto

theorem sorted_set_insert (x : vital_metadata_tag) (l : List vital_metadata_tag)
    (hl : l.Pairwise (· < ·)) : (set_insert x l).Pairwise (· < ·) := by
  induction l with
  | nil => simp [set_insert]
  | cons y ys ih =>
    unfold set_insert
    rw [List.pairwise_cons] at hl
    split_ifs with h1 h2
    · refine List.pairwise_cons.2 ⟨?_, List.pairwise_cons.2 hl⟩
      intro a ha
      rcases List.mem_cons.1 ha with rfl | ha
      · exact h1
      · exact lt_trans h1 (hl.1 a ha)
    · exact List.pairwise_cons.2 hl
    · refine List.pairwise_cons.2 ⟨?_, ih hl.2⟩
      intro a ha
      rcases (mem_set_insert a x ys).1 ha with rfl | ha
      · exact lt_of_le_of_ne (not_lt.1 h1) (fun h => h2 h.symm)
      · exact hl.1 a ha

theorem mem_set_erase (a x : vital_metadata_tag) (l : List vital_metadata_tag) :
    a ∈ set_erase x l ↔ a ∈ l ∧ a ≠ x := by
  simp [set_erase]

theorem sorted_set_erase (x : vital_metadata_tag) (l : List vital_metadata_tag)
    (hl : l.Pairwise (· < ·)) : (set_erase x l).Pairwise (· < ·) :=
  hl.filter _

/-! ## Lemmas: the accumulation pass -/

theorem accumulate_packet_spec (V : tag_vocabulary) (p : metadata) (acc : List vital_metadata_tag) :
    (acc.Pairwise (· < ·) → (accumulate_packet V acc p).Pairwise (· < ·)) ∧
    ∀ t, t ∈ accumulate_packet V acc p ↔
      t ∈ acc ∨ (t ∈ p.items.map Prod.fst ∧ t ≠ V.VITAL_META_VIDEO_URI) := by
  unfold accumulate_packet
  generalize p.items = items
  induction items generalizing acc with
  | nil => simp
  | cons it rest ih =>
    simp only [List.foldl_cons, List.map_cons, List.mem_cons]
    by_cases h : it.1 ≠ V.VITAL_META_VIDEO_URI
    · rw [if_pos h]
      refine ⟨fun hs => (ih _).1 (sorted_set_insert _ _ hs), fun t => ?_⟩
      rw [(ih _).2 t, mem_set_insert]
      constructor
      · rintro ((rfl | h1) | h2)
        · exact Or.inr ⟨Or.inl rfl, h⟩
        · exact Or.inl h1
        · exact Or.inr ⟨Or.inr h2.1, h2.2⟩
      · rintro (h1 | ⟨rfl | h2, h3⟩)
        · exact Or.inl (Or.inr h1)
        · exact Or.inl (Or.inl rfl)
        · exact Or.inr ⟨h2, h3⟩
    · rw [if_neg h]
      refine ⟨fun hs => (ih _).1 hs, fun t => ?_⟩
      rw [(ih _).2 t]
      push_neg at h
      constructor
      · rintro (h1 | h2)
        · exact Or.inl h1
        · exact Or.inr ⟨Or.inr h2.1, h2.2⟩
      · rintro (h1 | ⟨rfl | h2, h3⟩)
        · exact Or.inl h1
        · exact absurd h h3
        · exact Or.inr ⟨h2, h3⟩

theorem accumulate_frame_spec (V : tag_vocabulary) (fd : Int × List metadata)
    (acc : List vital_metadata_tag) :
    (acc.Pairwise (· < ·) → (accumulate_frame V acc fd).Pairwise (· < ·)) ∧
    ∀ t, t ∈ accumulate_frame V acc fd ↔
      t ∈ acc ∨ (t ∈ fd.2.flatMap (fun p => p.items.map Prod.fst) ∧
        t ≠ V.VITAL_META_VIDEO_URI) := by
  unfold accumulate_frame
  generalize fd.2 = ps
  induction ps generalizing acc with
  | nil => simp
  | cons p rest ih =>
    simp only [List.foldl_cons, List.flatMap_cons, List.mem_append]
    refine ⟨fun hs => (ih _).1 ((accumulate_packet_spec V p acc).1 hs), fun t => ?_⟩
    rw [(ih _).2 t, (accumulate_packet_spec V p acc).2 t]
    tauto

theorem accumulate_from_spec (V : tag_vocabulary) (data : metadata_map)
    (acc : List vital_metadata_tag) :
    (acc.Pairwise (· < ·) → (data.foldl (accumulate_frame V) acc).Pairwise (· < ·)) ∧
    ∀ t, t ∈ data.foldl (accumulate_frame V) acc ↔
      t ∈ acc ∨ (t ∈ observed_tags data ∧ t ≠ V.VITAL_META_VIDEO_URI) := by
  unfold observed_tags
  induction data generalizing acc with
  | nil => simp
  | cons fd rest ih =>
    simp only [List.foldl_cons, List.flatMap_cons, List.mem_append]
    refine ⟨fun hs => (ih _).1 ((accumulate_frame_spec V fd acc).1 hs), fun t => ?_⟩
    rw [(ih _).2 t, (accumulate_frame_spec V fd acc).2 t]
    tauto

theorem sorted_accumulate_present (V : tag_vocabulary) (data : metadata_map) :
    (accumulate_present V data).Pairwise (· < ·) :=
  (accumulate_from_spec V data []).1 List.Pairwise.nil

theorem mem_accumulate_present (V : tag_vocabulary) (data : metadata_map) (t : vital_metadata_tag) :
    t ∈ accumulate_present V data ↔ t ∈ observed_tags data ∧ t ≠ V.VITAL_META_VIDEO_URI := by
  unfold accumulate_present
  rw [(accumulate_from_spec V data []).2 t]
  simp

/-! ## Lemmas: the explicit-column loop -/

theorem explicit_fold_spec (V : tag_vocabulary) (d : priv) (is : List Nat)
    (st : List vital_metadata_tag × List metadata_info) :
    (is.foldl (explicit_step V d) st).2 = st.2 ++ is.map (explicit_info V d) ∧
    (st.1.Pairwise (· < ·) → (is.foldl (explicit_step V d) st).1.Pairwise (· < ·)) ∧
    ∀ t, t ∈ (is.foldl (explicit_step V d) st).1 ↔
      t ∈ st.1 ∧ ∀ i ∈ is, resolve_trait_id V (d.column_names.getD i "") = t →
        t = V.VITAL_META_UNKNOWN := by
  induction is generalizing st with
  | nil => simp
  | cons i rest ih =>
    simp only [List.foldl_cons, List.map_cons, List.mem_cons, forall_eq_or_imp]
    obtain ⟨h1, h2, h3⟩ := ih (explicit_step V d st i)
    refine ⟨?_, ?_, ?_⟩
    · rw [h1]; simp [explicit_step, explicit_info]
    · intro hs
      apply h2
      unfold explicit_step
      dsimp only
      split_ifs
      · exact sorted_set_erase _ _ hs
      · exact hs
    · intro t
      rw [h3 t]
      unfold explicit_step
      dsimp only
      split_ifs with hk
      · rw [mem_set_erase]
        constructor
        · rintro ⟨⟨ha, hb⟩, hc⟩
          exact ⟨ha, ⟨fun he => absurd he.symm hb, hc⟩⟩
        · rintro ⟨ha, hb, hc⟩
          refine ⟨⟨ha, fun he => hk ?_⟩, hc⟩
          rw [← he]; exact hb he.symm
      · push_neg at hk
        constructor
        · rintro ⟨ha, hc⟩
          exact ⟨ha, ⟨fun he => by rw [← he]; exact hk, hc⟩⟩
        · rintro ⟨ha, _, hc⟩
          exact ⟨ha, hc⟩

theorem range_map_getD (l : List String) (f : String → vital_metadata_tag) :
    (List.range l.length).map (fun i => f (l.getD i "")) = l.map f := by
  apply List.ext_getElem
  · simp
  · intro i h1 h2
    simp only [List.length_map, List.length_range] at h1
    simp [List.getD_eq_getElem?_getD, List.getElem?_eq_getElem h1]

theorem forall_range_getD (l : List String) (P : String → Prop) :
    (∀ i ∈ List.range l.length, P (l.getD i "")) ↔ ∀ name ∈ l, P name := by
  constructor
  · intro h name hn
    obtain ⟨i, hi, rfl⟩ := List.getElem_of_mem hn
    have := h i (List.mem_range.2 hi)
    simpa [List.getD_eq_getElem?_getD, List.getElem?_eq_getElem hi] using this
  · intro h i hi
    have hi2 := List.mem_range.1 hi
    have : l.getD i "" = l[i] := by
      simp [List.getD_eq_getElem?_getD, List.getElem?_eq_getElem hi2]
    rw [this]
    exact h _ (List.getElem_mem hi2)

theorem planned_columns_eq (V : tag_vocabulary) (d : priv) (data : metadata_map) :
    planned_columns V d data =
      (List.range d.column_names.length).map (explicit_info V d) ++
        (if d.write_remaining_columns then
          (remaining_ids V d data).map (fun id => { id := id, name := "", str := "" })
        else []) := by
  unfold planned_columns remaining_ids explicit_columns
  have h := (explicit_fold_spec V d (List.range d.column_names.length)
    (accumulate_present V data, [])).1
  simp only [List.nil_append] at h
  dsimp only
  split_ifs
  · rw [h]
  · rw [h]; simp

theorem sorted_remaining_ids (V : tag_vocabulary) (d : priv) (data : metadata_map) :
    (remaining_ids V d data).Pairwise (· < ·) :=
  (explicit_fold_spec V d _ (accumulate_present V data, [])).2.1
    (sorted_accumulate_present V data)

theorem mem_remaining_ids (V : tag_vocabulary) (d : priv) (data : metadata_map)
    (t : vital_metadata_tag) :
    t ∈ remaining_ids V d data ↔
      (t ∈ observed_tags data ∧ t ≠ V.VITAL_META_VIDEO_URI) ∧
      ∀ name ∈ d.column_names, resolve_trait_id V name = t → t = V.VITAL_META_UNKNOWN := by
  unfold remaining_ids explicit_columns
  rw [(explicit_fold_spec V d _ (accumulate_present V data, [])).2.2 t]
  dsimp only
  rw [mem_accumulate_present,
    forall_range_getD d.column_names
      (fun name => resolve_trait_id V name = t → t = V.VITAL_META_UNKNOWN)]

/-! ## Column planning -/

/-- C8: the planned column list is the explicit columns, one per configured name
token in input order (tag resolved by enum-style name first, then by descriptive
name, else the unresolved placeholder; with the token and its override),
followed, only when `write_remaining_columns` is set, by one column with empty
name and override per tag of the observed set (the tags of the data other than
the reserved linkage tag) that no explicit name resolved to, in strictly
ascending tag order.  In the example (`"FRAME_CENTER, foo"`, remaining columns
on, data with FRAME_CENTER and SENSOR_LOCATION) the list is exactly
FRAME_CENTER, foo (unresolved), SENSOR_LOCATION. -/
theorem planned_columns_characterisation (V : tag_vocabulary) (d : priv) (data : metadata_map) :
    planned_columns V d data =
        (List.range d.column_names.length).map
          (fun i =>
            { id :=
                if V.tag_traits_by_enum_name (d.column_names.getD i "") ≠ V.VITAL_META_UNKNOWN
                then V.tag_traits_by_enum_name (d.column_names.getD i "")
                else V.tag_traits_by_name (d.column_names.getD i "")
              name := d.column_names.getD i ""
              str := d.column_overrides.getD i "" }) ++
          (if d.write_remaining_columns then
            (remaining_ids V d data).map (fun id => { id := id, name := "", str := "" })
          else []) ∧
      (remaining_ids V d data).Pairwise (· < ·) ∧
      (∀ t, t ∈ remaining_ids V d data ↔
        (t ∈ observed_tags data ∧ t ≠ V.VITAL_META_VIDEO_URI) ∧
        ∀ name ∈ d.column_names, resolve_trait_id V name = t → t = V.VITAL_META_UNKNOWN) ∧
      planned_columns sample_vocabulary (set_configuration column_example_config)
          column_example_data =
        [{ id := sample_vocabulary.VITAL_META_FRAME_CENTER, name := "FRAME_CENTER", str := "" },
         { id := sample_vocabulary.VITAL_META_UNKNOWN, name := "foo", str := "" },
         { id := sample_vocabulary.VITAL_META_SENSOR_LOCATION, name := "", str := "" }] :=
  ⟨planned_columns_eq V d data, sorted_remaining_ids V d data, mem_remaining_ids V d data,
    by decide⟩

/-- C9 (as stated, refuted): with `column_names = [FRAME_CENTER, FRAME_CENTER]`
the tag FRAME_CENTER occurs twice in the planned list, and with
`column_names = [foo, bar]` the unresolved placeholder occurs twice. -/
theorem planned_columns_duplicate_tag :
    ¬ ((planned_columns sample_vocabulary (priv_with_columns ["FRAME_CENTER", "FRAME_CENTER"])
          []).map (fun info => info.id)).Nodup ∧
    ¬ ((planned_columns sample_vocabulary (priv_with_columns ["foo", "bar"])
          []).map (fun info => info.id)).Nodup := by
  decide

/-- C9 (amended): when no two configured name tokens resolve to the same tag, no
tag other than the unresolved placeholder appears twice in the final planned
column list. -/
theorem planned_columns_resolved_nodup (V : tag_vocabulary) (d : priv) (data : metadata_map)
    (hex : ((d.column_names.map (resolve_trait_id V)).filter
      (fun t => decide (t ≠ V.VITAL_META_UNKNOWN))).Nodup) :
    (((planned_columns V d data).map (fun info => info.id)).filter
      (fun t => decide (t ≠ V.VITAL_META_UNKNOWN))).Nodup := by
  have hmap : ((List.range d.column_names.length).map (explicit_info V d)).map (fun info => info.id)
      = d.column_names.map (resolve_trait_id V) := by
    rw [List.map_map]
    exact range_map_getD d.column_names (resolve_trait_id V)
  rw [planned_columns_eq, List.map_append, List.filter_append, hmap]
  refine List.Nodup.append hex ?_ ?_
  · apply List.Nodup.filter
    split_ifs
    · rw [List.map_map]
      have : ((fun info : metadata_info => info.id) ∘
          fun id => ({ id := id, name := "", str := "" } : metadata_info)) = id := rfl
      rw [this, List.map_id]
      exact (sorted_remaining_ids V d data).imp (fun h => Nat.ne_of_lt h)
    · simp
  · intro t h1 h2
    rw [List.mem_filter] at h1 h2
    obtain ⟨name, hname, hres⟩ := List.mem_map.1 h1.1
    have hne : t ≠ V.VITAL_META_UNKNOWN := of_decide_eq_true h1.2
    split_ifs at h2
    · rw [List.map_map] at h2
      obtain ⟨t2, ht2, rfl⟩ := List.mem_map.1 h2.1
      exact hne (((mem_remaining_ids V d data _).1 ht2).2 name hname hres)
    · simp at h2

/-- Witness of C9 (amended): the column-planning example. -/
theorem planned_columns_resolved_nodup_witness :
    (((planned_columns sample_vocabulary (set_configuration column_example_config)
      column_example_data).map (fun info => info.id)).filter
      (fun t => decide (t ≠ sample_vocabulary.VITAL_META_UNKNOWN))).Nodup :=
  planned_columns_resolved_nodup sample_vocabulary (set_configuration column_example_config)
    column_example_data (by decide)

/-- C10 (as stated, refuted): with `column_names = [VIDEO_URI]` the planned list
holds a column carrying the reserved linkage tag. -/
theorem planned_columns_video_uri_surfaced :
    ({ id := sample_vocabulary.VITAL_META_VIDEO_URI, name := "VIDEO_URI", str := "" } : metadata_info)
      ∈ planned_columns sample_vocabulary (priv_with_columns ["VIDEO_URI"]) [] := by
  decide

/-- C10 (amended): the reserved linkage tag is never appended as a remaining
column; a planned column carries it only when it is an explicit column, planned
for a configured name token that resolves to that tag. -/
theorem planned_columns_video_uri_only_explicit (V : tag_vocabulary) (d : priv)
    (data : metadata_map) (info : metadata_info)
    (hmem : info ∈ planned_columns V d data) (hid : info.id = V.VITAL_META_VIDEO_URI) :
    V.VITAL_META_VIDEO_URI ∉ remaining_ids V d data ∧
    info ∈ (List.range d.column_names.length).map (explicit_info V d) ∧
    info.name ∈ d.column_names ∧
    resolve_trait_id V info.name = V.VITAL_META_VIDEO_URI := by
  have hrem : V.VITAL_META_VIDEO_URI ∉ remaining_ids V d data := by
    intro h
    exact ((mem_remaining_ids V d data _).1 h).1.2 rfl
  have hexp : info ∈ (List.range d.column_names.length).map (explicit_info V d) := by
    rw [planned_columns_eq, List.mem_append] at hmem
    rcases hmem with h | h
    · exact h
    · exfalso
      split_ifs at h
      · obtain ⟨t, ht, rfl⟩ := List.mem_map.1 h
        exact hrem (hid ▸ ht)
      · simp at h
  refine ⟨hrem, hexp, ?_⟩
  obtain ⟨i, hi, rfl⟩ := List.mem_map.1 hexp
  have hi2 := List.mem_range.1 hi
  have hget : d.column_names.getD i "" = d.column_names[i] := by
    simp [List.getD_eq_getElem?_getD, List.getElem?_eq_getElem hi2]
  refine ⟨?_, hid⟩
  show d.column_names.getD i "" ∈ d.column_names
  rw [hget]
  exact List.getElem_mem hi2

/-- Witness of C10 (amended): the explicit column named `VIDEO_URI`, on data that
carries the reserved tag. -/
theorem planned_columns_video_uri_only_explicit_witness :
    planned_columns sample_vocabulary (priv_with_columns ["VIDEO_URI"]) video_uri_data =
      [{ id := sample_vocabulary.VITAL_META_VIDEO_URI, name := "VIDEO_URI", str := "" },
       { id := sample_vocabulary.VITAL_META_FRAME_CENTER, name := "", str := "" }] ∧
    (sample_vocabulary.VITAL_META_VIDEO_URI ∉
        remaining_ids sample_vocabulary (priv_with_columns ["VIDEO_URI"]) video_uri_data ∧
      ({ id := sample_vocabulary.VITAL_META_VIDEO_URI, name := "VIDEO_URI", str := "" } :
          metadata_info) ∈
        (List.range (priv_with_columns ["VIDEO_URI"]).column_names.length).map
          (explicit_info sample_vocabulary (priv_with_columns ["VIDEO_URI"])) ∧
      "VIDEO_URI" ∈ (priv_with_columns ["VIDEO_URI"]).column_names ∧
      resolve_trait_id sample_vocabulary "VIDEO_URI" = sample_vocabulary.VITAL_META_VIDEO_URI) :=
  ⟨by decide,
    planned_columns_video_uri_only_explicit sample_vocabulary (priv_with_columns ["VIDEO_URI"])
      video_uri_data
      { id := sample_vocabulary.VITAL_META_VIDEO_URI, name := "VIDEO_URI", str := "" }
      (by decide) rfl⟩

/-! ## Lemmas: the row-emission loop -/

theorem row_loop_append (d : priv) (s : row_state) (a b : List (Int × metadata)) :
    row_loop d s (a ++ b) = row_loop d s a ++ row_loop d (row_loop_state d s a) b := by
  induction a generalizing s with
  | nil => simp [row_loop, row_loop_state]
  | cons r rest ih =>
    simp only [List.cons_append, row_loop, row_loop_state]
    cases admission d s r.2.timestamp with
    | none => exact ih s
    | some s1 => simp [ih s1]

theorem row_loop_state_append (d : priv) (s : row_state) (a b : List (Int × metadata)) :
    row_loop_state d s (a ++ b) = row_loop_state d (row_loop_state d s a) b := by
  induction a generalizing s with
  | nil => simp [row_loop_state]
  | cons r rest ih =>
    simp only [List.cons_append, row_loop_state]
    cases admission d s r.2.timestamp with
    | none => exact ih s
    | some s1 => exact ih s1

theorem admission_no_downsampling (d : priv) (s : row_state) (ts : timestamp)
    (h1 : d.every_n_microseconds = 0) (h2 : d.every_n_frames = 0) :
    admission d s ts = some s := by
  simp [admission, time_gate, frame_gate, h1, h2]

theorem row_loop_no_downsampling (d : priv) (s : row_state) (recs : List (Int × metadata))
    (h1 : d.every_n_microseconds = 0) (h2 : d.every_n_frames = 0) :
    row_loop d s recs = recs := by
  induction recs with
  | nil => rfl
  | cons r rest ih => simp [row_loop, admission_no_downsampling d s _ h1 h2, ih]

/-- On a writable stream the text written by `save_` is the header line followed by
one row per written record. -/
theorem save_out_written (V : tag_vocabulary) (d : priv) (data : metadata_map) :
    (save_ V d true data).out =
      write_header_line V d (planned_columns V d data) ++
        String.join ((written_records d true data).map (write_row (planned_columns V d data))) := by
  by_cases h : d.every_n_microseconds ≠ 0 ∧ d.every_n_frames ≠ 0
  · simp [save_, written_records, h, String.join]
  · simp [save_, written_records, h]

/-! ## Configuration conflict -/

/-- C1 (as stated, refuted): with both interval options set, `save_` on the empty
frame collection throws only after the header line has been written. -/
theorem save_conflict_header_written :
    conflicting_config.every_n_microseconds.isSome = true ∧
    conflicting_config.every_n_frames.isSome = true ∧
    (save_ sample_vocabulary (set_configuration conflicting_config) true []).thrown =
      some save_exception.algorithm_configuration_exception ∧
    (save_ sample_vocabulary (set_configuration conflicting_config) true []).out =
      "\"Frame ID\",\"foo\",\n" ∧
    (save_ sample_vocabulary (set_configuration conflicting_config) true []).out ≠ "" := by
  decide

/-- C1 (amended): when both interval options are set to nonzero values, `save_`
fails for every frame collection, no data row has been written at the moment of
failure, and on a writable stream the output at that moment is exactly the
header line. -/
theorem save_conflict_fails_after_header (V : tag_vocabulary) (config : config_block)
    (fout_ok : Bool) (data : metadata_map) (a b : Nat)
    (ha : config.every_n_microseconds = some a) (hb : config.every_n_frames = some b)
    (ha0 : a ≠ 0) (hb0 : b ≠ 0) :
    (save_ V (set_configuration config) fout_ok data).thrown ≠ none ∧
    written_records (set_configuration config) fout_ok data = [] ∧
    save_ V (set_configuration config) true data =
      { out := write_header_line V (set_configuration config)
          (planned_columns V (set_configuration config) data)
        thrown := some save_exception.algorithm_configuration_exception } := by
  have h1 : (set_configuration config).every_n_microseconds ≠ 0 := by
    simp [set_configuration, ha, ha0]
  have h2 : (set_configuration config).every_n_frames ≠ 0 := by
    simp [set_configuration, hb, hb0]
  refine ⟨?_, ?_, ?_⟩
  · cases fout_ok <;> simp [save_, h1, h2]
  · cases fout_ok <;> simp [written_records, h1, h2]
  · simp [save_, h1, h2]

/-- Witness of C1 (amended): the conflicting configuration on the empty frame
collection. -/
theorem save_conflict_fails_after_header_witness :
    (save_ sample_vocabulary (set_configuration conflicting_config) true []).thrown ≠ none ∧
    written_records (set_configuration conflicting_config) true [] = [] ∧
    save_ sample_vocabulary (set_configuration conflicting_config) true [] =
      { out := write_header_line sample_vocabulary (set_configuration conflicting_config)
          (planned_columns sample_vocabulary (set_configuration conflicting_config) [])
        thrown := some save_exception.algorithm_configuration_exception } :=
  save_conflict_fails_after_header sample_vocabulary conflicting_config true [] 1000000 2
    rfl rfl (by decide) (by decide)

/-! ## No downsampling -/

/-- C7: when both intervals are zero every record is admitted: `save_` writes,
after the header line, exactly one data row per record, in frame-collection
order and within a frame in stored order, and each row is the frame identifier,
a comma, the cells of the planned columns and a newline. -/
theorem save_no_downsampling (V : tag_vocabulary) (d : priv) (data : metadata_map)
    (h1 : d.every_n_microseconds = 0) (h2 : d.every_n_frames = 0) :
    written_records d true data =
      data.flatMap (fun frame_data => frame_data.2.map (fun p => (frame_data.1, p))) ∧
    save_ V d true data =
      { out := write_header_line V d (planned_columns V d data) ++
          String.join ((data.flatMap (fun frame_data =>
              frame_data.2.map (fun p => (frame_data.1, p)))).map
            (fun r => toString r.1 ++ "," ++
              String.join ((planned_columns V d data).map (write_cell r.2)) ++ "\n"))
        thrown := none } := by
  constructor
  · simp only [written_records, h1, h2]
    simpa [records] using row_loop_no_downsampling d _ (records data) h1 h2
  · simp only [save_, h1, h2]
    simp only [row_loop_no_downsampling d _ (records data) h1 h2]
    simp only [records, ite_not, Bool.not_true, Bool.false_eq_true, ne_eq, not_true_eq_false,
      and_self, ↓reduceIte]
    rfl

/-- Witness of C7: the column-planning example, exported without downsampling. -/
theorem save_no_downsampling_witness :
    written_records (set_configuration column_example_config) true column_example_data =
      column_example_data.flatMap (fun frame_data => frame_data.2.map (fun p => (frame_data.1, p))) ∧
    save_ sample_vocabulary (set_configuration column_example_config) true column_example_data =
      { out := write_header_line sample_vocabulary (set_configuration column_example_config)
            (planned_columns sample_vocabulary (set_configuration column_example_config)
              column_example_data) ++
          String.join ((column_example_data.flatMap (fun frame_data =>
              frame_data.2.map (fun p => (frame_data.1, p)))).map
            (fun r => toString r.1 ++ "," ++
              String.join ((planned_columns sample_vocabulary
                (set_configuration column_example_config) column_example_data).map
                  (write_cell r.2)) ++ "\n"))
        thrown := none } :=
  save_no_downsampling sample_vocabulary (set_configuration column_example_config)
    column_example_data rfl rfl

/-! ## Time-interval downsampling -/

/-- C2 (as stated, refuted): with interval 1000000 and records at times 0,
500000, 1200000 and 2100000, the record at time 0 gets no row: rows are written
for the records at 1200000 and 2100000 only. -/
theorem time_example_first_record_rejected :
    (written_records (priv_with_intervals 1000000 0) true time_example_data).map
        (fun r => r.2.timestamp.get_time_usec) = [1200000, 2100000] ∧
    (written_records (priv_with_intervals 1000000 0) true time_example_data).map
        (fun r => r.2.timestamp.get_time_usec) ≠ [0, 1200000, 2100000] := by
  decide

/-- C3 (evaluation at the failing input): with interval 1000000 the records at
times 1900000 and 2000000 are both written, although they are only 100000
microseconds apart. -/
theorem time_successive_rows_closer_than_interval :
    (written_records (priv_with_intervals 1000000 0) true close_times_data).map
        (fun r => r.2.timestamp.get_time_usec) = [1900000, 2000000] ∧
    (2000000 - 1900000 : Int) < 1000000 := by
  decide

/-! ## Lemmas: threshold arithmetic -/

theorem advance_no_wrap (next u n : Nat) (hn : 0 < n)
    (hov : next + ((u - next) / n + 1) * n < UINT64_MOD) :
    (next + (((u - next) / n + 1) % UINT64_MOD * n) % UINT64_MOD) % UINT64_MOD =
      next + ((u - next) / n + 1) * n := by
  have h1 : ((u - next) / n + 1) * n < UINT64_MOD := by omega
  have h2 : (u - next) / n + 1 < UINT64_MOD :=
    lt_of_le_of_lt (Nat.le_mul_of_pos_right _ hn) h1
  rw [Nat.mod_eq_of_lt h2, Nat.mod_eq_of_lt h1, Nat.mod_eq_of_lt hov]

theorem next_multiple_eq (k u n : Nat) (hn : 0 < n) (hle : k * n ≤ u) :
    k * n + ((u - k * n) / n + 1) * n = (u / n + 1) * n := by
  have h1 : (u - n * k) / n = u / n - k := Nat.sub_mul_div u n k (by rw [Nat.mul_comm]; exact hle)
  have h2 : k ≤ u / n := (Nat.le_div_iff_mul_le hn).2 hle
  rw [Nat.mul_comm k n, h1, Nat.mul_comm n k, ← Nat.add_mul]
  congr 1
  omega

theorem time_gate_admits (d : priv) (s : row_state) (ts : timestamp) (k : Nat)
    (hn : 0 < d.every_n_microseconds)
    (hs : s.next_timestamp = k * d.every_n_microseconds)
    (hv : ts.has_valid_time = true)
    (hge : s.next_timestamp ≤ to_uint64 ts.get_time_usec)
    (hov : (to_uint64 ts.get_time_usec / d.every_n_microseconds + 1) * d.every_n_microseconds
      < UINT64_MOD) :
    time_gate d s ts = some { s with
      next_timestamp :=
        (to_uint64 ts.get_time_usec / d.every_n_microseconds + 1) * d.every_n_microseconds } := by
  have heq := next_multiple_eq k (to_uint64 ts.get_time_usec) d.every_n_microseconds hn
    (by rw [← hs]; exact hge)
  rw [← hs] at heq
  unfold time_gate
  rw [if_pos (Nat.pos_iff_ne_zero.1 hn)]
  have hcond : (!ts.has_valid_time ||
      decide (to_uint64 ts.get_time_usec < s.next_timestamp)) = false := by
    simp [hv, hge]
  rw [hcond]
  simp only [Bool.false_eq_true, ↓reduceIte]
  rw [advance_no_wrap _ _ _ hn (by rw [heq]; exact hov), heq]

theorem time_gate_rejects (d : priv) (s : row_state) (ts : timestamp)
    (hn : 0 < d.every_n_microseconds)
    (h : ts.has_valid_time = false ∨ to_uint64 ts.get_time_usec < s.next_timestamp) :
    time_gate d s ts = none := by
  unfold time_gate
  rw [if_pos (Nat.pos_iff_ne_zero.1 hn)]
  rcases h with h | h <;> simp [h]

theorem admission_time_only (d : priv) (s : row_state) (ts : timestamp)
    (hf : d.every_n_frames = 0) : admission d s ts = time_gate d s ts := by
  unfold admission
  cases time_gate d s ts with
  | none => rfl
  | some s1 => simp [frame_gate, hf]

/-- Under the time-interval policy without overflow, the admission threshold stays
a positive multiple of the interval while the loop visits any list of records. -/
theorem time_threshold_invariant (d : priv) (hn : 0 < d.every_n_microseconds)
    (hf : d.every_n_frames = 0) (recs : List (Int × metadata)) (s : row_state)
    (hov : ∀ x ∈ recs, x.2.timestamp.has_valid_time = true →
      (to_uint64 x.2.timestamp.get_time_usec / d.every_n_microseconds + 1) *
        d.every_n_microseconds < UINT64_MOD)
    (hs : ∃ k, 1 ≤ k ∧ s.next_timestamp = k * d.every_n_microseconds) :
    ∃ k, 1 ≤ k ∧ (row_loop_state d s recs).next_timestamp = k * d.every_n_microseconds := by
  induction recs generalizing s with
  | nil => exact hs
  | cons r rest ih =>
    have hov2 : ∀ x ∈ rest, x.2.timestamp.has_valid_time = true →
        (to_uint64 x.2.timestamp.get_time_usec / d.every_n_microseconds + 1) *
          d.every_n_microseconds < UINT64_MOD :=
      fun x hx => hov x (List.mem_cons_of_mem _ hx)
    obtain ⟨k, hk1, hk⟩ := hs
    unfold row_loop_state
    rw [admission_time_only d s _ hf]
    by_cases hadm : r.2.timestamp.has_valid_time = true ∧
        s.next_timestamp ≤ to_uint64 r.2.timestamp.get_time_usec
    · rw [time_gate_admits d s _ k hn hk hadm.1 hadm.2 (hov r (List.mem_cons_self _ _) hadm.1)]
      exact ih _ hov2 ⟨_, Nat.succ_le_succ (Nat.zero_le _), rfl⟩
    · rw [time_gate_rejects d s _ hn (by
        by_cases hv : r.2.timestamp.has_valid_time = true
        · exact Or.inr (Nat.lt_of_not_le (fun h => hadm ⟨hv, h⟩))
        · exact Or.inl (by simpa using hv))]
      exact ih s hov2 ⟨k, hk1, hk⟩

/-- C4: under the time-interval policy with interval `n > 0` and no 64-bit
overflow, whenever the loop meets a record with valid time `t` at or above the
current threshold, the record is admitted and the threshold becomes the
smallest multiple of `n` strictly greater than `t`, whatever the gap between `t`
and the old threshold. -/
theorem time_threshold_next_multiple (d : priv) (pre : List (Int × metadata))
    (r : Int × metadata)
    (hn : 0 < d.every_n_microseconds) (hf : d.every_n_frames = 0)
    (hov : ∀ x ∈ pre ++ [r], x.2.timestamp.has_valid_time = true →
      (to_uint64 x.2.timestamp.get_time_usec / d.every_n_microseconds + 1) *
        d.every_n_microseconds < UINT64_MOD)
    (hv : r.2.timestamp.has_valid_time = true)
    (hge : (row_loop_state d (initial_row_state d)
      pre).next_timestamp ≤ to_uint64 r.2.timestamp.get_time_usec) :
    row_loop d (initial_row_state d) (pre ++ [r]) =
      row_loop d (initial_row_state d) pre ++ [r] ∧
    d.every_n_microseconds ∣
      (row_loop_state d (initial_row_state d)
        (pre ++ [r])).next_timestamp ∧
    to_uint64 r.2.timestamp.get_time_usec <
      (row_loop_state d (initial_row_state d)
        (pre ++ [r])).next_timestamp ∧
    ∀ m, d.every_n_microseconds ∣ m → to_uint64 r.2.timestamp.get_time_usec < m →
      (row_loop_state d (initial_row_state d)
        (pre ++ [r])).next_timestamp ≤ m := by
  obtain ⟨k, _, hk⟩ := time_threshold_invariant d hn hf pre
    (initial_row_state d)
    (fun x hx => hov x (List.mem_append_left _ hx)) ⟨1, le_refl _, by simp [initial_row_state]⟩
  have hstep := time_gate_admits d _ r.2.timestamp k hn hk hv hge
    (hov r (List.mem_append_right _ (List.mem_singleton_self r)) hv)
  rw [row_loop_append, row_loop_state_append]
  simp only [row_loop, row_loop_state, admission_time_only d _ _ hf, hstep]
  refine ⟨trivial, Dvd.intro_left _ rfl, ?_, ?_⟩
  · rw [Nat.mul_comm]
    exact Nat.lt_mul_div_succ _ hn
  · rintro m ⟨c, rfl⟩ hlt
    rw [Nat.mul_comm]
    apply Nat.mul_le_mul_left
    have : to_uint64 r.2.timestamp.get_time_usec / d.every_n_microseconds < c :=
      (Nat.div_lt_iff_lt_mul hn).2 (by rw [Nat.mul_comm]; exact hlt)
    omega

/-- Witness of C4: interval 1000000, records at 0 and 500000 (both rejected), then
a record at 3200000: it is admitted and the threshold jumps from 1000000 to
4000000 in one step. -/
theorem time_threshold_next_multiple_witness :
    (row_loop_state (priv_with_intervals 1000000 0)
        (initial_row_state (priv_with_intervals 1000000 0))
        (records time_gap_data)).next_timestamp = 4000000 ∧
    (row_loop (priv_with_intervals 1000000 0) (initial_row_state (priv_with_intervals 1000000 0))
        ([(1, packet_at_time 0), (2, packet_at_time 500000)] ++ [(3, packet_at_time 3200000)]) =
      row_loop (priv_with_intervals 1000000 0) (initial_row_state (priv_with_intervals 1000000 0))
        [(1, packet_at_time 0), (2, packet_at_time 500000)] ++ [(3, packet_at_time 3200000)] ∧
    (priv_with_intervals 1000000 0).every_n_microseconds ∣
      (row_loop_state (priv_with_intervals 1000000 0)
        (initial_row_state (priv_with_intervals 1000000 0))
        ([(1, packet_at_time 0), (2, packet_at_time 500000)] ++
          [(3, packet_at_time 3200000)])).next_timestamp ∧
    to_uint64 (3, packet_at_time 3200000).2.timestamp.get_time_usec <
      (row_loop_state (priv_with_intervals 1000000 0)
        (initial_row_state (priv_with_intervals 1000000 0))
        ([(1, packet_at_time 0), (2, packet_at_time 500000)] ++
          [(3, packet_at_time 3200000)])).next_timestamp ∧
    ∀ m, (priv_with_intervals 1000000 0).every_n_microseconds ∣ m →
      to_uint64 (3, packet_at_time 3200000).2.timestamp.get_time_usec < m →
      (row_loop_state (priv_with_intervals 1000000 0)
        (initial_row_state (priv_with_intervals 1000000 0))
        ([(1, packet_at_time 0), (2, packet_at_time 500000)] ++
          [(3, packet_at_time 3200000)])).next_timestamp ≤ m) :=
  ⟨by decide,
    time_threshold_next_multiple (priv_with_intervals 1000000 0)
      [(1, packet_at_time 0), (2, packet_at_time 500000)] (3, packet_at_time 3200000)
      (by decide) rfl (by decide) rfl (by decide)⟩

/-- C2 (amended): with interval 1000000 and no frame interval, for every frame
collection whose records carry, in emission order, the valid times 0, 500000,
1200000 and 2100000, rows are written for exactly the third and the fourth
record, those at times 1200000 and 2100000. -/
theorem time_example_admitted (d : priv) (data : metadata_map)
    (hn : d.every_n_microseconds = 1000000) (hf : d.every_n_frames = 0)
    (hrec : (records data).map
        (fun r => (r.2.timestamp.has_valid_time, r.2.timestamp.get_time_usec)) =
      [(true, 0), (true, 500000), (true, 1200000), (true, 2100000)]) :
    written_records d true data = (records data).drop 2 ∧
    (written_records d true data).map (fun r => r.2.timestamp.get_time_usec) =
      [1200000, 2100000] := by
  have hw : written_records d true data = row_loop d (initial_row_state d) (records data) := by
    simp [written_records, hf]
  rw [hw]
  generalize records data = recs at hrec
  rcases recs with _ | ⟨r0, _ | ⟨r1, _ | ⟨r2, _ | ⟨r3, _ | ⟨r4, rest⟩⟩⟩⟩⟩ <;>
    simp only [List.map_cons, List.map_nil, List.cons.injEq, Prod.mk.injEq, and_true,
      reduceCtorEq, and_false] at hrec
  obtain ⟨⟨hv0, ht0⟩, ⟨hv1, ht1⟩, ⟨hv2, ht2⟩, ⟨hv3, ht3⟩⟩ := hrec
  have e0 : to_uint64 0 = 0 := by decide
  have e1 : to_uint64 500000 = 500000 := by decide
  have e2 : to_uint64 1200000 = 1200000 := by decide
  have e3 : to_uint64 2100000 = 2100000 := by decide
  simp [row_loop, initial_row_state, admission, time_gate, frame_gate, hn, hf, hv0, ht0, hv1, ht1,
    hv2, ht2, hv3, ht3, e0, e1, e2, e3, UINT64_MOD]

/-- Witness of C2 (amended): four frames with one packet each. -/
theorem time_example_admitted_witness :
    written_records (priv_with_intervals 1000000 0) true time_example_data =
      (records time_example_data).drop 2 ∧
    (written_records (priv_with_intervals 1000000 0) true time_example_data).map
      (fun r => r.2.timestamp.get_time_usec) = [1200000, 2100000] :=
  time_example_admitted (priv_with_intervals 1000000 0) time_example_data rfl rfl (by decide)

/-! ## Lemmas: frame-interval downsampling -/

theorem to_uint64_natCast (a : Nat) (h : a < UINT64_MOD) : to_uint64 (a : Int) = a := by
  unfold to_uint64
  unfold UINT64_MOD at h
  rw [Int.emod_eq_of_lt (Int.natCast_nonneg a) (by exact_mod_cast h)]
  simp

theorem frame_gate_admits (d : priv) (s : row_state) (ts : timestamp)
    (hn : 0 < d.every_n_frames)
    (hv : ts.has_valid_frame = true)
    (hge : s.next_frame ≤ to_uint64 ts.get_frame)
    (hov : s.next_frame + ((to_uint64 ts.get_frame - s.next_frame) / d.every_n_frames + 1) *
      d.every_n_frames < UINT64_MOD) :
    frame_gate d s ts = some { s with
      next_frame := s.next_frame +
        ((to_uint64 ts.get_frame - s.next_frame) / d.every_n_frames + 1) * d.every_n_frames } := by
  unfold frame_gate
  rw [if_pos (Nat.pos_iff_ne_zero.1 hn)]
  have hcond : (!ts.has_valid_frame || decide (to_uint64 ts.get_frame < s.next_frame)) = false := by
    simp [hv, hge]
  rw [hcond]
  simp only [Bool.false_eq_true, ↓reduceIte]
  rw [advance_no_wrap _ _ _ hn hov]

theorem frame_gate_rejects (d : priv) (s : row_state) (ts : timestamp)
    (hn : 0 < d.every_n_frames)
    (h : ts.has_valid_frame = false ∨ to_uint64 ts.get_frame < s.next_frame) :
    frame_gate d s ts = none := by
  unfold frame_gate
  rw [if_pos (Nat.pos_iff_ne_zero.1 hn)]
  rcases h with h | h <;> simp [h]

theorem admission_frame_only (d : priv) (s : row_state) (ts : timestamp)
    (ht : d.every_n_microseconds = 0) : admission d s ts = frame_gate d s ts := by
  simp [admission, time_gate, ht]

theorem frame_loop_consecutive (d : priv) (hn : 0 < d.every_n_frames)
    (ht : d.every_n_microseconds = 0) (L : List (Int × metadata)) :
    ∀ (a m T x : Nat),
      (∀ r ∈ L, r.2.timestamp.has_valid_frame = true) →
      L.map (fun r => r.2.timestamp.get_frame) = (List.range' (a + 1) m).map (fun i : Nat => (i : Int)) →
      a < T → T ≤ a + d.every_n_frames → d.every_n_frames ∣ T - 1 →
      a + m + d.every_n_frames < UINT64_MOD →
      row_loop d { next_timestamp := x, next_frame := T } L =
        L.filter (fun r =>
          decide ((r.2.timestamp.get_frame - 1) % (d.every_n_frames : Int) = 0)) := by
  induction L with
  | nil => intros; rfl
  | cons r rest ih =>
    intro a m T x hvalid hmap haT hTa hdvd hbound
    cases m with
    | zero => simp at hmap
    | succ m =>
      rw [List.range'_succ] at hmap
      simp only [List.map_cons, List.cons.injEq] at hmap
      obtain ⟨hfr, hrest⟩ := hmap
      have hvr := hvalid r (List.mem_cons_self _ _)
      have hvrest : ∀ r ∈ rest, r.2.timestamp.has_valid_frame = true :=
        fun x hx => hvalid x (List.mem_cons_of_mem _ hx)
      have hu : to_uint64 r.2.timestamp.get_frame = a + 1 := by
        rw [hfr]; exact to_uint64_natCast _ (by omega)
      have hpred : ((r.2.timestamp.get_frame - 1) % (d.every_n_frames : Int) = 0) ↔
          d.every_n_frames ∣ a := by
        rw [hfr]
        have : (((a + 1 : Nat) : Int) - 1) = (a : Int) := by push_cast; ring
        rw [this, ← Int.natCast_mod, Nat.dvd_iff_mod_eq_zero]
        exact_mod_cast Iff.rfl
      unfold row_loop
      rw [admission_frame_only d _ _ ht, List.filter_cons]
      by_cases hT : T ≤ a + 1
      · have hTeq : T = a + 1 := by omega
        subst hTeq
        have hzero : (to_uint64 r.2.timestamp.get_frame - (a + 1)) / d.every_n_frames = 0 := by
          rw [hu]; simp
        rw [frame_gate_admits d _ _ hn hvr (by simp [hu]) (by
          simp only [hzero]; omega)]
        simp only [hzero, Nat.zero_add, Nat.one_mul]
        have hda : d.every_n_frames ∣ a := by simpa using hdvd
        rw [if_pos (by simpa using hpred.2 hda)]
        congr 1
        exact ih (a + 1) m (a + 1 + d.every_n_frames) x hvrest hrest (by omega) (by omega)
          (by
            have : a + 1 + d.every_n_frames - 1 = a + d.every_n_frames := by omega
            rw [this]
            exact Dvd.dvd.add hda (dvd_refl _))
          (by omega)
      · have hnd : ¬ d.every_n_frames ∣ a := by
          intro hda
          have h1 : d.every_n_frames ∣ T - 1 - a := Nat.dvd_sub' hdvd hda
          have h2 := Nat.le_of_dvd (by omega) h1
          omega
        rw [frame_gate_rejects d _ _ hn (Or.inr (by simp only [hu]; omega))]
        rw [if_neg (by simpa using fun h => hnd (hpred.1 h))]
        exact ih (a + 1) m T x hvrest hrest (by omega) (by omega) hdvd (by omega)

theorem frame_loop_every_frame (d : priv) (hn : d.every_n_frames = 1)
    (ht : d.every_n_microseconds = 0) (L : List (Int × metadata)) :
    ∀ (T : Nat) (S : List Int) (x : Nat),
      (∀ r ∈ L, r.2.timestamp.has_valid_frame = true ∧ 1 ≤ r.2.timestamp.get_frame ∧
        r.2.timestamp.get_frame < 9223372036854775808) →
      (L.map (fun r => r.2.timestamp.get_frame)).Pairwise (· ≤ ·) →
      (∀ r ∈ L, r.2.timestamp.get_frame ∈ S ↔ r.2.timestamp.get_frame < (T : Int)) →
      T ≤ 9223372036854775808 →
      row_loop d { next_timestamp := x, next_frame := T } L = first_record_of_each_frame S L := by
  induction L with
  | nil => intros; rfl
  | cons r rest ih =>
    intro T S x hall hsorted hseen hT
    obtain ⟨hv, h1, h2⟩ := hall r (List.mem_cons_self _ _)
    have hall2 : ∀ r ∈ rest, r.2.timestamp.has_valid_frame = true ∧ 1 ≤ r.2.timestamp.get_frame ∧
        r.2.timestamp.get_frame < 9223372036854775808 :=
      fun y hy => hall y (List.mem_cons_of_mem _ hy)
    rw [List.map_cons, List.pairwise_cons] at hsorted
    obtain ⟨u, hu⟩ := Int.eq_ofNat_of_zero_le (by omega : 0 ≤ r.2.timestamp.get_frame)
    have hu2 : to_uint64 r.2.timestamp.get_frame = u := by
      rw [hu]; exact to_uint64_natCast u (by unfold UINT64_MOD; omega)
    have hpos : 0 < d.every_n_frames := by omega
    unfold row_loop first_record_of_each_frame
    rw [admission_frame_only d _ _ ht]
    by_cases hlt : u < T
    · rw [frame_gate_rejects d _ _ hpos (Or.inr (by simpa [hu2] using hlt))]
      rw [if_pos ((hseen r (List.mem_cons_self _ _)).2 (by omega))]
      exact ih T S x hall2 hsorted.2 (fun y hy => hseen y (List.mem_cons_of_mem _ hy)) hT
    · have hdiv : (to_uint64 r.2.timestamp.get_frame - T) / d.every_n_frames + 1 = u - T + 1 := by
        rw [hu2, hn, Nat.div_one]
      rw [frame_gate_admits d _ _ hpos hv (by simp only [hu2]; omega) (by
        simp only [hdiv, hn, UINT64_MOD]; omega)]
      rw [if_neg (fun hmem => by
        have := (hseen r (List.mem_cons_self _ _)).1 hmem
        omega)]
      rw [hdiv, hn, Nat.mul_one]
      show r :: row_loop d { next_timestamp := x, next_frame := T + (u - T + 1) } rest = _
      congr 1
      apply ih (T + (u - T + 1)) (r.2.timestamp.get_frame :: S) x hall2 hsorted.2 _ (by omega)
      intro y hy
      have hle := hsorted.1 _ (List.mem_map_of_mem (fun r => r.2.timestamp.get_frame) hy)
      have hS := hseen y (List.mem_cons_of_mem _ hy)
      rw [List.mem_cons]
      constructor
      · rintro (h | h)
        · omega
        · have := hS.1 h
          omega
      · intro h
        left
        omega

/-! ## Frame-interval downsampling -/

/-- C5 (as stated, refuted): with `every_n_frames = 2^64 - 1` and records at
frames 1 and 2, the threshold wraps to 0 after frame 1 and a row is written for
frame 2 as well, although `(2 - 1) mod n` is not 0. -/
theorem frame_interval_threshold_wraps :
    (written_records (priv_with_intervals 0 18446744073709551615) true two_frames_data).map
        (fun r => r.2.timestamp.get_frame) = [1, 2] ∧
    ((2 : Int) - 1) % ((18446744073709551615 : Nat) : Int) ≠ 0 := by
  decide

/-- C5 (amended): under the frame-interval policy with interval `n ≥ 1`, for a frame
collection whose records carry, in emission order, the valid frame numbers
1, 2, ..., m, and with `m + n < 2^64` (so that the threshold does not wrap),
rows are written for exactly the records whose frame number `f` satisfies
`(f - 1) mod n = 0`. -/
theorem frame_interval_admitted (d : priv) (data : metadata_map) (m : Nat)
    (hn : 1 ≤ d.every_n_frames) (ht : d.every_n_microseconds = 0)
    (hvalid : ∀ r ∈ records data, r.2.timestamp.has_valid_frame = true)
    (hframes : (records data).map (fun r => r.2.timestamp.get_frame) =
      (List.range' 1 m).map (fun i : Nat => (i : Int)))
    (hbound : m + d.every_n_frames < UINT64_MOD) :
    written_records d true data =
      (records data).filter (fun r =>
        decide ((r.2.timestamp.get_frame - 1) % (d.every_n_frames : Int) = 0)) := by
  have hw : written_records d true data = row_loop d (initial_row_state d) (records data) := by
    simp [written_records, ht]
  rw [hw]
  exact frame_loop_consecutive d hn ht (records data) 0 m 1 d.every_n_microseconds hvalid
    hframes (by omega) (by omega) (by simp) (by omega)

/-- Witness of C5 (amended): frames 1 to 5 with interval 2 give rows for exactly
the frames 1, 3 and 5. -/
theorem frame_interval_admitted_witness :
    (written_records (priv_with_intervals 0 2) true frame_example_data).map
        (fun r => r.2.timestamp.get_frame) = [1, 3, 5] ∧
    written_records (priv_with_intervals 0 2) true frame_example_data =
      (records frame_example_data).filter (fun r =>
        decide ((r.2.timestamp.get_frame - 1) %
          ((priv_with_intervals 0 2).every_n_frames : Int) = 0)) :=
  ⟨by decide,
    frame_interval_admitted (priv_with_intervals 0 2) frame_example_data 5 (by decide) rfl
      (by decide) (by decide) (by decide)⟩

/-- C6: with `every_n_frames = 1` and no time interval, for every frame collection
whose records all carry a valid frame number that is at least 1 (and fits the
signed 64-bit frame type) and whose frame numbers are non-decreasing in emission
order, rows are written for exactly the records that are the first to carry
their frame number: one row per distinct frame number, none for any other
record. -/
theorem every_frame_first_record (d : priv) (data : metadata_map)
    (hn : d.every_n_frames = 1) (ht : d.every_n_microseconds = 0)
    (hvalid : ∀ r ∈ records data, r.2.timestamp.has_valid_frame = true ∧
      1 ≤ r.2.timestamp.get_frame ∧ r.2.timestamp.get_frame < 9223372036854775808)
    (hsorted : ((records data).map (fun r => r.2.timestamp.get_frame)).Pairwise (· ≤ ·)) :
    written_records d true data = first_record_of_each_frame [] (records data) := by
  have hw : written_records d true data = row_loop d (initial_row_state d) (records data) := by
    simp [written_records, ht]
  rw [hw]
  refine frame_loop_every_frame d hn ht (records data) 1 [] d.every_n_microseconds hvalid
    hsorted (fun r hr => ?_) (by omega)
  have := (hvalid r hr).2.1
  simp only [List.not_mem_nil, false_iff]
  omega

/-- Witness of C6: packets at frames 1, 1, 2, 2, 5 give rows for the first, third
and fifth packet. -/
theorem every_frame_first_record_witness :
    (written_records (priv_with_intervals 0 1) true repeated_frames_data).map
        (fun r => r.2.timestamp.get_frame) = [1, 2, 5] ∧
    written_records (priv_with_intervals 0 1) true repeated_frames_data =
      first_record_of_each_frame [] (records repeated_frames_data) :=
  ⟨by decide,
    every_frame_first_record (priv_with_intervals 0 1) repeated_frames_data rfl rfl
      (by decide) (by decide)⟩

/-! ## Lemmas: fields and text -/

theorem string_join_cons (a : String) (l : List String) :
    String.join (a :: l) = a ++ String.join l := by
  apply String.ext
  simp [String.join_eq, String.data_append]

theorem string_join_append (l1 l2 : List String) :
    String.join (l1 ++ l2) = String.join l1 ++ String.join l2 := by
  apply String.ext
  simp [String.join_eq, String.data_append]

theorem write_cell_eq_fields (p : metadata) (info : metadata_info) :
    write_cell p info = String.join ((write_cell_fields p info).map (fun f => f ++ ",")) := by
  unfold write_cell write_cell_fields
  split_ifs
  · cases p.find info.id with
    | none => rfl
    | some item => rfl
  · rfl

/-! ## Empty cells and header overrides -/

/-- C12: for every packet and every planned column whose tag the packet has no
value for, the text written for that column is exactly one empty field, a single
comma, whatever the column is (so also for the three-field and eight-field
composite columns). -/
theorem write_cell_absent (p : metadata) (info : metadata_info)
    (habsent : p.has info.id = false) :
    write_cell p info = "," ∧ write_cell_fields p info = [""] := by
  simp [write_cell, write_cell_fields, habsent]

/-- Witness of C12: the corner-points column of a packet that holds only a frame
center: the header of the column has eight fields, the cell is a single comma. -/
theorem write_cell_absent_witness :
    (write_csv_header_fields sample_vocabulary (priv_with_columns [])
        sample_vocabulary.VITAL_META_CORNER_POINTS "" "").length = 8 ∧
    (write_cell frame_center_packet
        { id := sample_vocabulary.VITAL_META_CORNER_POINTS, name := "", str := "" } = "," ∧
      write_cell_fields frame_center_packet
        { id := sample_vocabulary.VITAL_META_CORNER_POINTS, name := "", str := "" } = [""]) :=
  ⟨by decide,
    write_cell_absent frame_center_packet
      { id := sample_vocabulary.VITAL_META_CORNER_POINTS, name := "", str := "" } (by decide)⟩

/-- C14: for every column with a non-empty override name, `write_csv_header` emits
exactly one field, the override text in double quotes followed by a comma,
whatever the tag, the name token and `write_enum_names` are. -/
theorem write_csv_header_override (V : tag_vocabulary) (d : priv)
    (csv_field : vital_metadata_tag) (field_name field_override : String)
    (hover : field_override ≠ "") :
    write_csv_header_fields V d csv_field field_name field_override = [field_override] ∧
    write_csv_header V d csv_field field_name field_override =
      "\"" ++ field_override ++ "\"," := by
  simp [write_csv_header, write_csv_header_fields, hover, String.join]

/-- Witness of C14: the corner-points tag with the override `corners`. -/
theorem write_csv_header_override_witness :
    write_csv_header_fields sample_vocabulary (priv_with_columns [])
        sample_vocabulary.VITAL_META_CORNER_POINTS "CORNER_POINTS" "corners" = ["corners"] ∧
    write_csv_header sample_vocabulary (priv_with_columns [])
        sample_vocabulary.VITAL_META_CORNER_POINTS "CORNER_POINTS" "corners" =
      "\"" ++ "corners" ++ "\"," :=
  write_csv_header_override sample_vocabulary (priv_with_columns [])
    sample_vocabulary.VITAL_META_CORNER_POINTS "CORNER_POINTS" "corners" (by decide)

/-! ## Configuration check -/

/-- C15: `check_configuration` returns false exactly when both
`every_n_microseconds` and `every_n_frames` are present in the configuration,
whatever their values, and true in every other case. -/
theorem check_configuration_false_iff (config : config_block) :
    (check_configuration config = false ↔
      (config.every_n_microseconds.isSome = true ∧ config.every_n_frames.isSome = true)) ∧
    (check_configuration config = true ↔
      ¬ (config.every_n_microseconds.isSome = true ∧ config.every_n_frames.isSome = true)) := by
  unfold check_configuration
  cases config.every_n_microseconds.isSome <;> cases config.every_n_frames.isSome <;> simp

/-! ## Polygon encoding -/

theorem polygon_fields_index (verts : List (String × String)) :
    ∀ i (h : i < verts.length),
      (verts.flatMap (fun v => [v.1, v.2]))[2 * i]? = some verts[i].1 ∧
      (verts.flatMap (fun v => [v.1, v.2]))[2 * i + 1]? = some verts[i].2 := by
  induction verts with
  | nil => intro i h; simp at h
  | cons v rest ih =>
    intro i h
    cases i with
    | zero => simp
    | succ j =>
      have hj : j < rest.length := by simpa using h
      have e1 : 2 * (j + 1) = 2 * j + 1 + 1 := by ring
      have e2 : 2 * (j + 1) + 1 = 2 * j + 1 + 1 + 1 := by ring
      simp only [List.flatMap_cons, List.cons_append, List.nil_append, e1, e2,
        List.getElem?_cons_succ, List.getElem_cons_succ]
      exact ih j hj

/-- C18: for every geodetic polygon with `k` vertices the value encoder emits
exactly `2k` comma-terminated fields, the two components of vertex 0 first, then
those of vertex 1, and so on in vertex order; the text is one
`first,second,` group per vertex, and for `k = 0` nothing at all is written. -/
theorem write_visitor_polygon (verts : List (String × String)) :
    (write_visitor_fields (.geo_polygon verts)).length = 2 * verts.length ∧
    (∀ i (h : i < verts.length),
      (write_visitor_fields (.geo_polygon verts))[2 * i]? = some verts[i].1 ∧
      (write_visitor_fields (.geo_polygon verts))[2 * i + 1]? = some verts[i].2) ∧
    write_visitor (.geo_polygon verts) =
      String.join (verts.map (fun v => v.1 ++ "," ++ v.2 ++ ",")) ∧
    write_visitor_fields (.geo_polygon []) = [] ∧
    write_visitor (.geo_polygon []) = "" := by
  refine ⟨?_, polygon_fields_index verts, ?_, rfl, rfl⟩
  · unfold write_visitor_fields
    induction verts with
    | nil => rfl
    | cons v rest ih => simp only [List.flatMap_cons, List.length_append, ih]; simp; omega
  · unfold write_visitor write_visitor_fields
    induction verts with
    | nil => rfl
    | cons v rest ih =>
      simp only [List.flatMap_cons, List.map_append, List.map_cons, List.map_nil,
        string_join_append, string_join_cons, ih]
      apply String.ext
      simp [String.join_eq, String.data_append]

/-! ## Field counts of rows and header -/

theorem string_join_map_join {α : Type} (l : List α) (g : α → List String) :
    String.join (l.map (fun a => String.join (g a))) = String.join (l.flatMap g) := by
  induction l with
  | nil => rfl
  | cons a rest ih =>
    simp only [List.map_cons, List.flatMap_cons, string_join_cons, string_join_append, ih]

theorem write_row_eq_fields (infos : List metadata_info) (r : Int × metadata) :
    write_row infos r =
      toString r.1 ++ "," ++
        String.join ((write_row_fields infos r.2).map (fun f => f ++ ",")) ++ "\n" := by
  unfold write_row write_row_fields
  have h : infos.map (write_cell r.2) =
      infos.map (fun info => String.join ((write_cell_fields r.2 info).map (fun f => f ++ ","))) :=
    List.map_congr_left (fun info _ => write_cell_eq_fields r.2 info)
  rw [h, string_join_map_join, List.map_flatMap]

theorem write_header_line_eq_fields (V : tag_vocabulary) (d : priv) (infos : List metadata_info) :
    write_header_line V d infos =
      "\"Frame ID\"," ++
        String.join ((write_header_line_fields V d infos).map (fun f => "\"" ++ f ++ "\",")) ++
        "\n" := by
  unfold write_header_line write_header_line_fields write_csv_header
  rw [string_join_map_join, List.map_flatMap]

/-- C11 (as stated, refuted): first, with the single planned column FRAME_CENTER
(three header fields), the row of a packet without items, which holds no polygon,
has one data field; second, with the column FRAME_CENTER renamed by the override
`center` (one header field), the row of a packet holding a frame center has
three data fields. -/
theorem row_fields_differ_from_header :
    ((2 : Int), empty_packet) ∈
        written_records (priv_with_columns []) true absent_composite_data ∧
      (write_header_line_fields sample_vocabulary (priv_with_columns [])
        (planned_columns sample_vocabulary (priv_with_columns [])
          absent_composite_data)).length = 3 ∧
      (write_row_fields
        (planned_columns sample_vocabulary (priv_with_columns []) absent_composite_data)
        empty_packet).length = 1 ∧
    (((1 : Int), frame_center_packet) ∈
        written_records (set_configuration (config_with_columns "FRAME_CENTER" "center")) true
          [(1, [frame_center_packet])] ∧
      (write_header_line_fields sample_vocabulary
        (set_configuration (config_with_columns "FRAME_CENTER" "center"))
        (planned_columns sample_vocabulary
          (set_configuration (config_with_columns "FRAME_CENTER" "center"))
          [(1, [frame_center_packet])])).length = 1 ∧
      (write_row_fields
        (planned_columns sample_vocabulary
          (set_configuration (config_with_columns "FRAME_CENTER" "center"))
          [(1, [frame_center_packet])])
        frame_center_packet).length = 3) := by
  decide

theorem has_true_find (p : metadata) (tag : vital_metadata_tag) (h : p.has tag = true) :
    ∃ v, p.find tag = some v ∧ (tag, v) ∈ p.items := by
  unfold metadata.has at h
  unfold metadata.find
  generalize p.items = items at h ⊢
  induction items with
  | nil => simp at h
  | cons it rest ih =>
    by_cases hk : it.1 = tag
    · refine ⟨it.2, ?_, ?_⟩
      · simp [List.find?_cons, hk]
      · rw [← hk]; exact List.mem_cons_self _ _
    · have h2 : rest.any (fun it => it.1 == tag) = true := by
        simpa [List.any_cons, hk] using h
      obtain ⟨v, hv1, hv2⟩ := ih h2
      refine ⟨v, ?_, List.mem_cons_of_mem _ hv2⟩
      simpa [List.find?_cons, hk] using hv1

theorem polygon_fields_length (verts : List (String × String)) :
    (verts.flatMap (fun v => [v.1, v.2])).length = 2 * verts.length := by
  induction verts with
  | nil => rfl
  | cons v rest ih => simp only [List.flatMap_cons, List.length_append, ih]; simp; omega

/-- The field count of one cell against the field count of its header: they agree
except for a corner-points column without override, where the cell has two
fields per vertex and the header eight. -/
theorem cell_width_eq (V : tag_vocabulary) (d : priv) (p : metadata) (info : metadata_info)
    (hdistinct : distinct_composite_tags V = true)
    (htyped : ∀ it ∈ p.items, well_typed_item V it = true)
    (hcomposite : is_composite_tag V info.id = true → (p.has info.id = true ↔ info.str = "")) :
    (write_cell_fields p info).length +
        (if info.id = V.VITAL_META_CORNER_POINTS ∧ info.str = "" then 8 else 0) =
      (write_csv_header_fields V d info.id info.name info.str).length +
        (if info.id = V.VITAL_META_CORNER_POINTS ∧ info.str = "" then
          2 * corner_vertex_count V p else 0) := by
  obtain ⟨id, name, str⟩ := info
  simp only [distinct_composite_tags, is_composite_tag, is_point_tag, Bool.and_eq_true,
    Bool.not_eq_true', Bool.or_eq_false_iff, decide_eq_false_iff_not] at hdistinct
  obtain ⟨⟨⟨⟨hu1, hu2⟩, hu3⟩, hu4⟩, ⟨hc1, hc2⟩, hc3⟩ := hdistinct
  simp only [is_composite_tag, is_point_tag, Bool.or_eq_true, decide_eq_true_eq] at hcomposite
  by_cases hhas : p.has id = true
  · obtain ⟨v, hfind, hmem⟩ := has_true_find p id hhas
    have hty := htyped (id, v) hmem
    have hcells : write_cell_fields p ⟨id, name, str⟩ = write_visitor_fields v := by
      simp [write_cell_fields, hhas, hfind]
    rw [hcells]
    cases v with
    | geo_point a b c =>
      simp only [well_typed_item, is_point_tag, Bool.or_eq_true, decide_eq_true_eq] at hty
      have hstr : str = "" := (hcomposite (Or.inl hty)).1 hhas
      have hne : id ≠ V.VITAL_META_CORNER_POINTS := by
        rintro rfl
        rcases hty with (h | h) | h
        · exact hc1 h
        · exact hc2 h
        · exact hc3 h
      have hnu : id ≠ V.VITAL_META_UNKNOWN := by
        rintro rfl
        rcases hty with (h | h) | h
        · exact hu1 h
        · exact hu2 h
        · exact hu3 h
      subst hstr
      simp only [write_visitor_fields, write_csv_header_fields, hne, hnu, false_and, ite_false,
        ne_eq, not_true_eq_false, if_false]
      rcases hty with (h | h) | h <;> split_ifs <;> simp_all
    | geo_polygon verts =>
      simp only [well_typed_item, decide_eq_true_eq] at hty
      subst hty
      have hstr : str = "" := (hcomposite (Or.inr rfl)).1 hhas
      subst hstr
      have hk : corner_vertex_count V p = verts.length := by
        simp [corner_vertex_count, hfind]
      simp only [write_visitor_fields, polygon_fields_length, write_csv_header_fields, hk,
        and_self, ite_true, ne_eq, not_true_eq_false, if_false, hu4, hc1, hc2, hc3]
      rw [if_neg (fun h => hu4 h.symm)]
      simp only [List.length_cons, List.length_nil]
      omega
    | bool b =>
      simp only [well_typed_item, is_composite_tag, is_point_tag, Bool.not_eq_true',
        Bool.or_eq_false_iff, decide_eq_false_iff_not] at hty
      obtain ⟨⟨⟨h1, h2⟩, h3⟩, h4⟩ := hty
      simp only [write_visitor_fields, write_csv_header_fields, h1, h2, h3, h4, false_and,
        if_false]
      split_ifs <;> simp
    | int b =>
      simp only [well_typed_item, is_composite_tag, is_point_tag, Bool.not_eq_true',
        Bool.or_eq_false_iff, decide_eq_false_iff_not] at hty
      obtain ⟨⟨⟨h1, h2⟩, h3⟩, h4⟩ := hty
      simp only [write_visitor_fields, write_csv_header_fields, h1, h2, h3, h4, false_and,
        if_false]
      split_ifs <;> simp
    | uint64 b =>
      simp only [well_typed_item, is_composite_tag, is_point_tag, Bool.not_eq_true',
        Bool.or_eq_false_iff, decide_eq_false_iff_not] at hty
      obtain ⟨⟨⟨h1, h2⟩, h3⟩, h4⟩ := hty
      simp only [write_visitor_fields, write_csv_header_fields, h1, h2, h3, h4, false_and,
        if_false]
      split_ifs <;> simp
    | double b =>
      simp only [well_typed_item, is_composite_tag, is_point_tag, Bool.not_eq_true',
        Bool.or_eq_false_iff, decide_eq_false_iff_not] at hty
      obtain ⟨⟨⟨h1, h2⟩, h3⟩, h4⟩ := hty
      simp only [write_visitor_fields, write_csv_header_fields, h1, h2, h3, h4, false_and,
        if_false]
      split_ifs <;> simp
    | string b =>
      simp only [well_typed_item, is_composite_tag, is_point_tag, Bool.not_eq_true',
        Bool.or_eq_false_iff, decide_eq_false_iff_not] at hty
      obtain ⟨⟨⟨h1, h2⟩, h3⟩, h4⟩ := hty
      simp only [write_visitor_fields, write_csv_header_fields, h1, h2, h3, h4, false_and,
        if_false]
      split_ifs <;> simp
  · have hcells : write_cell_fields p ⟨id, name, str⟩ = [""] := by
      simp [write_cell_fields, hhas]
    rw [hcells]
    by_cases hcomp : ((id = V.VITAL_META_SENSOR_LOCATION ∨ id = V.VITAL_META_FRAME_CENTER) ∨
        id = V.VITAL_META_TARGET_LOCATION) ∨ id = V.VITAL_META_CORNER_POINTS
    · have hstr : str ≠ "" := fun h => hhas ((hcomposite hcomp).2 h)
      simp [write_csv_header_fields, hstr]
    · push_neg at hcomp
      obtain ⟨⟨⟨h1, h2⟩, h3⟩, h4⟩ := hcomp
      simp only [write_csv_header_fields, h1, h2, h3, h4, false_and, if_false]
      split_ifs <;> simp

theorem row_width_eq (V : tag_vocabulary) (d : priv) (p : metadata)
    (hdistinct : distinct_composite_tags V = true)
    (htyped : ∀ it ∈ p.items, well_typed_item V it = true) (infos : List metadata_info)
    (hcomposite : ∀ info ∈ infos, is_composite_tag V info.id = true →
      (p.has info.id = true ↔ info.str = "")) :
    (write_row_fields infos p).length + 8 * corner_columns V infos =
      (write_header_line_fields V d infos).length +
        2 * corner_vertex_count V p * corner_columns V infos := by
  induction infos with
  | nil => simp [write_row_fields, write_header_line_fields, corner_columns]
  | cons info rest ih =>
    have hcell := cell_width_eq V d p info hdistinct htyped
      (hcomposite info (List.mem_cons_self _ _))
    have hrest := ih (fun x hx => hcomposite x (List.mem_cons_of_mem _ hx))
    simp only [write_row_fields, write_header_line_fields, corner_columns, List.flatMap_cons,
      List.length_append, List.filter_cons] at hrest ⊢
    by_cases hcorner : info.id = V.VITAL_META_CORNER_POINTS ∧ info.str = ""
    · simp only [hcorner, and_self, ite_true, decide_True, List.length_cons] at hcell ⊢
      rw [Nat.mul_add, Nat.mul_add]
      omega
    · simp only [hcorner, ite_false, decide_False, Bool.false_eq_true, if_false] at hcell ⊢
      omega

/-- C11 (amended): with values typed as the header layout assumes, in every data
row of a record that holds a value for each planned composite column exactly
when that column has no override, the number of data fields after the frame-id
field equals the number of header fields after "Frame ID", except for rows
containing a polygon under a planned corner-points column, where every such
column without override has two fields per vertex of the polygon in place of its
eight header fields.  The row text and the header text are those fields, each
followed by a comma. -/
theorem row_fields_match_header (V : tag_vocabulary) (d : priv) (data : metadata_map)
    (r : Int × metadata)
    (hdistinct : distinct_composite_tags V = true)
    (htyped : ∀ it ∈ r.2.items, well_typed_item V it = true)
    (hcomposite : ∀ info ∈ planned_columns V d data, is_composite_tag V info.id = true →
      (r.2.has info.id = true ↔ info.str = "")) :
    (write_row_fields (planned_columns V d data) r.2).length +
        8 * corner_columns V (planned_columns V d data) =
      (write_header_line_fields V d (planned_columns V d data)).length +
        2 * corner_vertex_count V r.2 * corner_columns V (planned_columns V d data) ∧
    (corner_columns V (planned_columns V d data) = 0 →
      (write_row_fields (planned_columns V d data) r.2).length =
        (write_header_line_fields V d (planned_columns V d data)).length) ∧
    write_row (planned_columns V d data) r =
      toString r.1 ++ "," ++
        String.join ((write_row_fields (planned_columns V d data) r.2).map (fun f => f ++ ",")) ++
        "\n" ∧
    write_header_line V d (planned_columns V d data) =
      "\"Frame ID\"," ++
        String.join ((write_header_line_fields V d (planned_columns V d data)).map
          (fun f => "\"" ++ f ++ "\",")) ++ "\n" := by
  have h := row_width_eq V d r.2 hdistinct htyped (planned_columns V d data) hcomposite
  refine ⟨h, fun h0 => ?_, write_row_eq_fields _ r, write_header_line_eq_fields V d _⟩
  rw [h0] at h
  simpa using h

/-- Witness of C11 (amended): a packet holding a frame center, a three-vertex
polygon and an integer, under the planned columns FRAME_CENTER, CORNER_POINTS
and tag 7: ten data fields against twelve header fields, the corner-points
column having six fields in place of eight. -/
theorem row_fields_match_header_witness :
    ((write_row_fields
        (planned_columns sample_vocabulary (priv_with_columns []) [(1, [triangle_packet])])
        triangle_packet).length = 10 ∧
      (write_header_line_fields sample_vocabulary (priv_with_columns [])
        (planned_columns sample_vocabulary (priv_with_columns [])
          [(1, [triangle_packet])])).length = 12 ∧
      corner_columns sample_vocabulary
        (planned_columns sample_vocabulary (priv_with_columns []) [(1, [triangle_packet])]) = 1 ∧
      corner_vertex_count sample_vocabulary triangle_packet = 3) ∧
    (write_row_fields
        (planned_columns sample_vocabulary (priv_with_columns []) [(1, [triangle_packet])])
        ((1 : Int), triangle_packet).2).length +
        8 * corner_columns sample_vocabulary
          (planned_columns sample_vocabulary (priv_with_columns []) [(1, [triangle_packet])]) =
      (write_header_line_fields sample_vocabulary (priv_with_columns [])
        (planned_columns sample_vocabulary (priv_with_columns [])
          [(1, [triangle_packet])])).length +
        2 * corner_vertex_count sample_vocabulary ((1 : Int), triangle_packet).2 *
          corner_columns sample_vocabulary
            (planned_columns sample_vocabulary (priv_with_columns [])
              [(1, [triangle_packet])]) :=
  ⟨by decide,
    (row_fields_match_header sample_vocabulary (priv_with_columns []) [(1, [triangle_packet])]
      ((1 : Int), triangle_packet) (by decide) (by decide) (by decide)).1⟩

/-! ## Unresolved name tokens -/

theorem planned_columns_explicit_index (V : tag_vocabulary) (d : priv) (data : metadata_map)
    (i : Nat) (hi : i < d.column_names.length) :
    (planned_columns V d data)[i]? = some (explicit_info V d i) := by
  rw [planned_columns_eq, List.getElem?_append_left (by simpa using hi)]
  simp [List.getElem?_map, List.getElem?_range hi]

/-- C13 (as stated, refuted): the name token `foo` resolves to no tag and has an
empty override, yet in the row of a packet that holds an item under
VITAL_META_UNKNOWN the cell of that column is the encoded item, not an empty
field. -/
theorem unresolved_column_cell_not_empty :
    resolve_trait_id sample_vocabulary "foo" = sample_vocabulary.VITAL_META_UNKNOWN ∧
    (planned_columns sample_vocabulary (priv_with_columns ["foo"])
        [(1, [unknown_item_packet])])[0]? =
      some { id := sample_vocabulary.VITAL_META_UNKNOWN, name := "foo", str := "" } ∧
    write_cell unknown_item_packet
        { id := sample_vocabulary.VITAL_META_UNKNOWN, name := "foo", str := "" } = "7," ∧
    write_cell unknown_item_packet
        { id := sample_vocabulary.VITAL_META_UNKNOWN, name := "foo", str := "" } ≠ "," := by
  decide

/-- C13 (amended): for every configured name token that resolves to no known tag
and has an empty override, the planned column carries the placeholder tag, the
header has exactly one quoted field with the literal token for it, and the cell
written for it is a single comma in the row of every packet that holds no item
under the placeholder tag. -/
theorem unresolved_column_header_and_cells (V : tag_vocabulary) (d : priv)
    (data : metadata_map) (i : Nat) (name : String)
    (hi : i < d.column_names.length)
    (hname : d.column_names.getD i "" = name)
    (hover : d.column_overrides.getD i "" = "")
    (henum : V.tag_traits_by_enum_name name = V.VITAL_META_UNKNOWN)
    (hdesc : V.tag_traits_by_name name = V.VITAL_META_UNKNOWN) :
    (planned_columns V d data)[i]? =
      some { id := V.VITAL_META_UNKNOWN, name := name, str := "" } ∧
    write_csv_header_fields V d V.VITAL_META_UNKNOWN name "" = [name] ∧
    write_csv_header V d V.VITAL_META_UNKNOWN name "" = "\"" ++ name ++ "\"," ∧
    ∀ p : metadata, p.has V.VITAL_META_UNKNOWN = false →
      write_cell p { id := V.VITAL_META_UNKNOWN, name := name, str := "" } = "," := by
  refine ⟨?_, ?_, ?_, ?_⟩
  · rw [planned_columns_explicit_index V d data i hi]
    unfold explicit_info resolve_trait_id
    rw [hname, hover, henum, hdesc]
    simp
  · simp [write_csv_header_fields]
  · simp [write_csv_header, write_csv_header_fields, String.join]
  · intro p hp
    simp [write_cell, hp]

/-- Witness of C13 (amended): the token `foo` of the column-planning example. -/
theorem unresolved_column_header_and_cells_witness :
    (planned_columns sample_vocabulary (set_configuration column_example_config)
        column_example_data)[1]? =
      some { id := sample_vocabulary.VITAL_META_UNKNOWN, name := "foo", str := "" } ∧
    write_csv_header_fields sample_vocabulary (set_configuration column_example_config)
        sample_vocabulary.VITAL_META_UNKNOWN "foo" "" = ["foo"] ∧
    write_csv_header sample_vocabulary (set_configuration column_example_config)
        sample_vocabulary.VITAL_META_UNKNOWN "foo" "" = "\"" ++ "foo" ++ "\"," ∧
    ∀ p : metadata, p.has sample_vocabulary.VITAL_META_UNKNOWN = false →
      write_cell p { id := sample_vocabulary.VITAL_META_UNKNOWN, name := "foo", str := "" } = "," :=
  unresolved_column_header_and_cells sample_vocabulary (set_configuration column_example_config)
    column_example_data 1 "foo" (by decide) (by decide) (by decide) (by decide) (by decide)

/-! ## Rejection before the first row -/

/-- C16: when both downsampling intervals are nonzero, `save_` fails for every
frame collection before any data row is written: no record gets a row, and on a
writable stream the exception is the configuration exception and the output up
to the failure is the header line alone. -/
theorem save_conflict_no_data_row (V : tag_vocabulary) (d : priv) (fout_ok : Bool)
    (data : metadata_map)
    (husec : d.every_n_microseconds ≠ 0) (hframes : d.every_n_frames ≠ 0) :
    (save_ V d fout_ok data).thrown ≠ none ∧
    written_records d fout_ok data = [] ∧
    (save_ V d true data).thrown = some save_exception.algorithm_configuration_exception ∧
    (save_ V d true data).out = write_header_line V d (planned_columns V d data) := by
  refine ⟨?_, ?_, ?_, ?_⟩
  · cases fout_ok <;> simp [save_, husec, hframes]
  · cases fout_ok <;> simp [written_records, husec, hframes]
  · simp [save_, husec, hframes]
  · simp [save_, husec, hframes]

/-- Witness of C16: intervals 1000000 and 2 on the four-frame time example. -/
theorem save_conflict_no_data_row_witness :
    (save_ sample_vocabulary (priv_with_intervals 1000000 2) true time_example_data).thrown
      ≠ none ∧
    written_records (priv_with_intervals 1000000 2) true time_example_data = [] ∧
    (save_ sample_vocabulary (priv_with_intervals 1000000 2) true time_example_data).thrown =
      some save_exception.algorithm_configuration_exception ∧
    (save_ sample_vocabulary (priv_with_intervals 1000000 2) true time_example_data).out =
      write_header_line sample_vocabulary (priv_with_intervals 1000000 2)
        (planned_columns sample_vocabulary (priv_with_intervals 1000000 2) time_example_data) :=
  save_conflict_no_data_row sample_vocabulary (priv_with_intervals 1000000 2) true
    time_example_data (by decide) (by decide)

/-! ## Override padding -/

theorem length_resize (v : List String) (n : Nat) : (resize v n).length = n := by
  simp [resize]
  omega

theorem getD_resize (v : List String) (n i : Nat) (hi : i < n) :
    (resize v n).getD i "" = v.getD i "" := by
  unfold resize
  simp only [List.getD_eq_getElem?_getD]
  by_cases h : i < v.length
  · rw [List.getElem?_append_left (by simp; omega)]
    simp [List.getElem?_take, hi]
  · rw [List.getElem?_append_right (by simp; omega)]
    have h1 : v[i]? = none := List.getElem?_eq_none (by omega)
    rw [h1]
    simp only [List.length_take, Option.getD_none]
    have h2 : i - min n v.length < n - v.length := by omega
    rw [List.getElem?_replicate]
    simp [h2]

/-- C17: after `set_configuration` the override list has exactly the length of
the column-name list; for every `i` below that length the lookup
`column_overrides[i]` is in bounds and yields the `i`-th trimmed override token
when one was given and the empty string otherwise; surplus override tokens are
dropped. -/
theorem set_configuration_overrides (config : config_block) :
    (set_configuration config).column_names = split_and_trim config.column_names ∧
    (set_configuration config).column_overrides.length =
      (set_configuration config).column_names.length ∧
    ∀ i, i < (set_configuration config).column_names.length →
      i < (set_configuration config).column_overrides.length ∧
      (set_configuration config).column_overrides[i]? =
        some (if i < (tokenize config.column_overrides).length
          then string_trim ((tokenize config.column_overrides).getD i "") else "") := by
  refine ⟨rfl, length_resize _ _, fun i hi => ?_⟩
  have hlen : (set_configuration config).column_overrides.length =
      (set_configuration config).column_names.length := length_resize _ _
  have hi2 : i < (set_configuration config).column_overrides.length := by omega
  refine ⟨hi2, ?_⟩
  have hget := getD_resize (split_and_trim config.column_overrides)
    (split_and_trim config.column_names).length i hi
  have hget2 : (set_configuration config).column_overrides.getD i "" =
      (split_and_trim config.column_overrides).getD i "" := hget
  rw [List.getD_eq_getElem?_getD, List.getElem?_eq_getElem hi2, Option.getD_some] at hget2
  rw [List.getElem?_eq_getElem hi2, hget2]
  congr 1
  unfold split_and_trim
  simp only [List.getD_eq_getElem?_getD, List.getElem?_map]
  by_cases h : i < (tokenize config.column_overrides).length
  · simp [h, List.getElem?_eq_getElem h]
  · simp [h, List.getElem?_eq_none (Nat.le_of_not_lt h)]

/-- Witness of C17: three column names with one override, and one column name
with two overrides. -/
theorem set_configuration_overrides_witness :
    (set_configuration (config_with_columns "a,b,c" " x ")).column_overrides = ["x", "", ""] ∧
    (set_configuration (config_with_columns "a" "x, y")).column_overrides = ["x"] ∧
    (1 < (set_configuration (config_with_columns "a,b,c" " x ")).column_overrides.length ∧
      (set_configuration (config_with_columns "a,b,c" " x ")).column_overrides[1]? =
        some (if 1 < (tokenize (config_with_columns "a,b,c" " x ").column_overrides).length
          then string_trim ((tokenize (config_with_columns "a,b,c" " x ").column_overrides).getD 1 "")
          else "")) :=
  ⟨by decide, by decide,
    (set_configuration_overrides (config_with_columns "a,b,c" " x ")).2.2 1 (by decide)⟩

/-! ## Windows of the time-interval policy -/

theorem time_loop_written (d : priv) (hn : 0 < d.every_n_microseconds)
    (hf : d.every_n_frames = 0) (recs : List (Int × metadata)) :
    ∀ s : row_state,
      (∀ x ∈ recs, x.2.timestamp.has_valid_time = true →
        (to_uint64 x.2.timestamp.get_time_usec / d.every_n_microseconds + 1) *
          d.every_n_microseconds < UINT64_MOD) →
      (∃ k, 1 ≤ k ∧ s.next_timestamp = k * d.every_n_microseconds) →
      (∀ r ∈ row_loop d s recs, r.2.timestamp.has_valid_time = true ∧
        s.next_timestamp ≤ to_uint64 r.2.timestamp.get_time_usec) ∧
      ((row_loop d s recs).map
        (fun r => to_uint64 r.2.timestamp.get_time_usec / d.every_n_microseconds)).Pairwise
          (· < ·) := by
  induction recs with
  | nil => intro s _ _; simp [row_loop]
  | cons r rest ih =>
    intro s hov hs
    have hov2 : ∀ x ∈ rest, x.2.timestamp.has_valid_time = true →
        (to_uint64 x.2.timestamp.get_time_usec / d.every_n_microseconds + 1) *
          d.every_n_microseconds < UINT64_MOD :=
      fun x hx => hov x (List.mem_cons_of_mem _ hx)
    obtain ⟨k, hk1, hk⟩ := hs
    unfold row_loop
    rw [admission_time_only d s _ hf]
    by_cases hadm : r.2.timestamp.has_valid_time = true ∧
        s.next_timestamp ≤ to_uint64 r.2.timestamp.get_time_usec
    · rw [time_gate_admits d s _ k hn hk hadm.1 hadm.2 (hov r (List.mem_cons_self _ _) hadm.1)]
      obtain ⟨ih1, ih2⟩ := ih
        { s with
          next_timestamp :=
            (to_uint64 r.2.timestamp.get_time_usec / d.every_n_microseconds + 1) *
              d.every_n_microseconds }
        hov2
        ⟨to_uint64 r.2.timestamp.get_time_usec / d.every_n_microseconds + 1,
          Nat.succ_le_succ (Nat.zero_le _), rfl⟩
      have hlt : to_uint64 r.2.timestamp.get_time_usec <
          (to_uint64 r.2.timestamp.get_time_usec / d.every_n_microseconds + 1) *
            d.every_n_microseconds := by
        rw [Nat.mul_comm]; exact Nat.lt_mul_div_succ _ hn
      refine ⟨?_, ?_⟩
      · intro r2 hr2
        rcases List.mem_cons.1 hr2 with rfl | hr2
        · exact hadm
        · have := ih1 r2 hr2
          exact ⟨this.1, by have h2 := this.2; simp only at h2; omega⟩
      · rw [List.map_cons, List.pairwise_cons]
        refine ⟨?_, ih2⟩
        intro q hq
        obtain ⟨r2, hr2, rfl⟩ := List.mem_map.1 hq
        have h2 := (ih1 r2 hr2).2
        simp only at h2
        have := (Nat.le_div_iff_mul_le hn).2 h2
        omega
    · rw [time_gate_rejects d s _ hn (by
        by_cases hv : r.2.timestamp.has_valid_time = true
        · exact Or.inr (Nat.lt_of_not_le (fun h => hadm ⟨hv, h⟩))
        · exact Or.inl (by simpa using hv))]
      exact ih s hov2 ⟨k, hk1, hk⟩

/-- C19: under the time-interval policy with interval `n > 0` and no 64-bit
overflow, the threshold is a positive multiple of `n` after every prefix of the
row-emission pass; of any two written records the later one lies in a strictly
later window (`t1 / n < t2 / n`), so at most one row is written per window; no
record with time below `n` is written; and the written times are strictly
increasing, whatever the order of the input times.  Times are taken as the
comparison of the source sees them, converted to `uint64_t`. -/
theorem time_policy_windows (d : priv) (data : metadata_map)
    (hn : 0 < d.every_n_microseconds) (hf : d.every_n_frames = 0)
    (hov : ∀ x ∈ records data, x.2.timestamp.has_valid_time = true →
      (to_uint64 x.2.timestamp.get_time_usec / d.every_n_microseconds + 1) *
        d.every_n_microseconds < UINT64_MOD) :
    (∀ pre post, records data = pre ++ post →
      ∃ k, 1 ≤ k ∧
        (row_loop_state d (initial_row_state d) pre).next_timestamp =
          k * d.every_n_microseconds) ∧
    ((written_records d true data).map
      (fun r => to_uint64 r.2.timestamp.get_time_usec / d.every_n_microseconds)).Pairwise
        (· < ·) ∧
    (∀ r ∈ written_records d true data, r.2.timestamp.has_valid_time = true ∧
      d.every_n_microseconds ≤ to_uint64 r.2.timestamp.get_time_usec) ∧
    ((written_records d true data).map
      (fun r => to_uint64 r.2.timestamp.get_time_usec)).Pairwise (· < ·) := by
  have hw : written_records d true data = row_loop d (initial_row_state d) (records data) := by
    simp [written_records, hf]
  have hinit : ∃ k, 1 ≤ k ∧
      (initial_row_state d).next_timestamp = k * d.every_n_microseconds :=
    ⟨1, le_refl _, by simp [initial_row_state]⟩
  obtain ⟨h1, h2⟩ := time_loop_written d hn hf (records data) (initial_row_state d) hov hinit
  rw [hw]
  refine ⟨?_, h2, h1, ?_⟩
  · intro pre post hsplit
    exact time_threshold_invariant d hn hf pre (initial_row_state d)
      (fun x hx => hov x (by rw [hsplit]; exact List.mem_append_left _ hx)) hinit
  · rw [List.pairwise_map] at h2 ⊢
    refine h2.imp ?_
    intro a b hab
    by_contra hcon
    have := Nat.div_le_div_right (c := d.every_n_microseconds) (Nat.le_of_not_lt hcon)
    omega

/-- Witness of C19: interval 1000000 and the unsorted times 2500000, 1200000,
2100000, 3100000: rows are written for 2500000 and 3100000 only. -/
theorem time_policy_windows_witness :
    (written_records (priv_with_intervals 1000000 0) true unsorted_times_data).map
        (fun r => r.2.timestamp.get_time_usec) = [2500000, 3100000] ∧
    ((∀ pre post, records unsorted_times_data = pre ++ post →
      ∃ k, 1 ≤ k ∧
        (row_loop_state (priv_with_intervals 1000000 0)
          (initial_row_state (priv_with_intervals 1000000 0)) pre).next_timestamp =
          k * (priv_with_intervals 1000000 0).every_n_microseconds) ∧
    ((written_records (priv_with_intervals 1000000 0) true unsorted_times_data).map
      (fun r => to_uint64 r.2.timestamp.get_time_usec /
        (priv_with_intervals 1000000 0).every_n_microseconds)).Pairwise (· < ·) ∧
    (∀ r ∈ written_records (priv_with_intervals 1000000 0) true unsorted_times_data,
      r.2.timestamp.has_valid_time = true ∧
      (priv_with_intervals 1000000 0).every_n_microseconds ≤
        to_uint64 r.2.timestamp.get_time_usec) ∧
    ((written_records (priv_with_intervals 1000000 0) true unsorted_times_data).map
      (fun r => to_uint64 r.2.timestamp.get_time_usec)).Pairwise (· < ·)) :=
  ⟨by decide,
    time_policy_windows (priv_with_intervals 1000000 0) unsorted_times_data (by decide) rfl
      (by decide)⟩

/-! ## Downsampling only removes rows -/

theorem row_loop_sublist (d : priv) (recs : List (Int × metadata)) :
    ∀ s : row_state, List.Sublist (row_loop d s recs) recs := by
  induction recs with
  | nil => intro s; simp [row_loop]
  | cons r rest ih =>
    intro s
    unfold row_loop
    cases admission d s r.2.timestamp with
    | none => exact (ih s).cons r
    | some s1 => exact (ih s1).cons₂ r

/-- C20: for every configuration with at most one nonzero interval and every frame
collection, `save_` succeeds, its header line is the header line written with
both intervals zero (the columns are planned from all records), and its data
rows form a subsequence of the data rows written with both intervals zero, each
kept row being the same text. -/
theorem downsampling_only_removes_rows (V : tag_vocabulary) (d : priv) (data : metadata_map)
    (hone : ¬ (d.every_n_microseconds ≠ 0 ∧ d.every_n_frames ≠ 0)) :
    planned_columns V d data = planned_columns V (without_downsampling d) data ∧
    write_header_line V d (planned_columns V d data) =
      write_header_line V (without_downsampling d)
        (planned_columns V (without_downsampling d) data) ∧
    save_ V d true data =
      { out := write_header_line V d (planned_columns V d data) ++
          String.join ((written_records d true data).map
            (write_row (planned_columns V d data)))
        thrown := none } ∧
    save_ V (without_downsampling d) true data =
      { out := write_header_line V (without_downsampling d)
            (planned_columns V (without_downsampling d) data) ++
          String.join ((written_records (without_downsampling d) true data).map
            (write_row (planned_columns V (without_downsampling d) data)))
        thrown := none } ∧
    List.Sublist (written_records d true data)
      (written_records (without_downsampling d) true data) ∧
    List.Sublist
      ((written_records d true data).map (write_row (planned_columns V d data)))
      ((written_records (without_downsampling d) true data).map
        (write_row (planned_columns V (without_downsampling d) data))) := by
  have hcols : planned_columns V d data = planned_columns V (without_downsampling d) data := rfl
  have hall : written_records (without_downsampling d) true data = records data := by
    simp only [written_records, without_downsampling]
    simpa using row_loop_no_downsampling (without_downsampling d) _ (records data) rfl rfl
  have hsub : List.Sublist (written_records d true data)
      (written_records (without_downsampling d) true data) := by
    rw [hall]
    simp only [written_records, hone]
    simpa using row_loop_sublist d (records data) (initial_row_state d)
  refine ⟨hcols, rfl, ?_, ?_, hsub, ?_⟩
  · simp [save_, written_records, hone]
  · simp [save_, written_records, without_downsampling]
  · rw [← hcols]
    exact hsub.map _

/-- Witness of C20: frame interval 2 on two frames with different tags: the header
keeps the columns of the rejected second record, and the single row is the first
of the two rows written without downsampling. -/
theorem downsampling_only_removes_rows_witness :
    (written_records (priv_with_intervals 0 2) true two_tags_data).map Prod.fst = [1] ∧
    (written_records (without_downsampling (priv_with_intervals 0 2)) true two_tags_data).map
      Prod.fst = [1, 2] ∧
    (planned_columns sample_vocabulary (priv_with_intervals 0 2) two_tags_data =
        planned_columns sample_vocabulary (without_downsampling (priv_with_intervals 0 2))
          two_tags_data ∧
      write_header_line sample_vocabulary (priv_with_intervals 0 2)
          (planned_columns sample_vocabulary (priv_with_intervals 0 2) two_tags_data) =
        write_header_line sample_vocabulary (without_downsampling (priv_with_intervals 0 2))
          (planned_columns sample_vocabulary (without_downsampling (priv_with_intervals 0 2))
            two_tags_data)) :=
  ⟨by decide, by decide,
    ⟨(downsampling_only_removes_rows sample_vocabulary (priv_with_intervals 0 2) two_tags_data
        (by decide)).1,
      (downsampling_only_removes_rows sample_vocabulary (priv_with_intervals 0 2) two_tags_data
        (by decide)).2.1⟩⟩

end kwiver.arrows.core
